import Mathlib

/-!
# Kalp SDK: KYC-gated ledger access and the NIU asset lifecycle

A shallow embedding of `example/smartcontract.go` (the `SmartContract` operations
`CreateNIU`, `ReadNIU`, `TransferNIU`, `BurnTokens`) together with the part of
`kalpsdk.TransactionContextInterface` those operations call.

* Byte strings (`[]byte`) are written as text; a `nil` result of `GetState` is `none`.
* An `error` is its message; `fmt.Errorf` is string concatenation.
* Everything a transaction consults but does not own (the JSON codec of the Go
  standard library, the identity of the caller, the peer answering cross-chaincode
  invocations, ledger failures) is a field of `World`.
* What a transaction changes is a `State`: the key-value store, the emitted events, and
  the trace of calls issued to the chaincode stub.
-/

set_option autoImplicit false
set_option linter.unusedVariables false

namespace kalpsdk

/-- Go `[]byte`, written as text. -/
abbrev Bytes := String

/-- A decoded `interface{}` JSON value, kept as its JSON text: the contract never inspects it. -/
abbrev RawJSON := String

/-- The shared key-value store of the ledger: a finite list of key/value pairs. -/
abbrev Store := List (String × Bytes)

/-- Value stored at `key`, `none` when the key is absent. -/
def Store.get : Store → String → Option Bytes
  | [], _ => none
  | (k, v) :: rest, key => if k = key then some v else Store.get rest key

/-- Remove `key` from the store. -/
def Store.del (s : Store) (key : String) : Store :=
  s.filter (fun kv => decide (kv.1 ≠ key))

/-- Write `value` at `key`, replacing any previous value. -/
def Store.put (s : Store) (key : String) (value : Bytes) : Store :=
  (key, value) :: Store.del s key

/-- The `peer.Response` of a cross-chaincode invocation. -/
structure Response where
  Status : Nat
  Payload : Bytes
deriving DecidableEq, Repr

/-- Status code `shim.OK`. -/
def OK : Nat := 200

/-- Status code `shim.ERROR`. -/
def ERROR : Nat := 500

/-- A call issued to the chaincode stub during a transaction. -/
inductive Call where
  | InvokeChaincode (chaincodeName : String) (args : List Bytes) (channel : String)
  | PutState (key : String) (value : Bytes)
  | DelState (key : String)
  | SetEvent (name : String) (payload : Bytes)
deriving DecidableEq, Repr

deriving instance DecidableEq for Except

/-- What a transaction can change: the store, the events emitted so far, and the calls
issued to the stub so far (each in order of occurrence). -/
structure State where
  store : Store
  events : List (String × Bytes)
  trace : List Call
deriving DecidableEq, Repr

end kalpsdk

namespace smartcontract

open kalpsdk

def nameKey : String := "name"
def symbolKey : String := "symbol"
def statusInProgress : String := "INPROGRESS"
def statusCompleted : String := "COMPLETED"

/-- The `NIU` structure (`Type` is spelled `Typ`, `Amount` is a `uint64`). -/
structure NIU where
  Id : String
  DocType : String
  Name : String
  Typ : String
  Desc : String
  Status : String
  Account : List String
  MetaData : RawJSON
  Amount : Nat
  Uri : String
  AssetDigest : String
deriving DecidableEq, Repr

end smartcontract

namespace kalpsdk

open smartcontract

/-- Everything a transaction consults but does not own. -/
structure World where
  /-- Go `json.Unmarshal(data, &niu)` for `var niu NIU`. -/
  Unmarshal : Bytes → Except String NIU
  /-- Go `json.Marshal(niu)` for an `NIU` value. -/
  Marshal : NIU → Except String Bytes
  /-- Go `json.Marshal(niu.MetaData)`. -/
  MarshalMetaData : RawJSON → Except String Bytes
  /-- Go `json.Unmarshal(data, &inputData)` for a `map[string]interface{}`, observed through the
  type assertion `inputData[key].(string)`: `some s` exactly when the key holds the string `s`. -/
  UnmarshalMap : Bytes → Except String (String → Option String)
  /-- The calling principal as resolved from the client identity, or the failure to resolve it. -/
  UserID : Except String String
  /-- The peer's response to invoking chaincode `name` with `args` on `channel`. -/
  Invoke : String → List Bytes → String → Response
  /-- Ledger failure of a read of a key, if any. -/
  GetStateErr : String → Option String
  /-- Ledger failure of a write of a key/value, if any. -/
  PutStateErr : String → Bytes → Option String
  /-- Ledger failure of a delete of a key, if any. -/
  DelStateErr : String → Option String
  /-- Failure of the event sink for an event name and payload, if any. -/
  SetEventErr : String → Bytes → Option String
  /-- Ledger failure of a rich query, by query text, if any. -/
  GetQueryResultErr : String → Option String
  /-- Whether a principal is entitled to mint for an account list (left open by the spec). -/
  MintAuthorized : String → List String → Bool

/-- The error `ComplianceRequired` of the spec; the SDK messages are not part of the sources, so
each error of the SDK is written as its name in the spec. -/
def ComplianceRequired : String := "ComplianceRequired"

/-- The error `ComplianceServiceUnavailable` of the spec. -/
def ComplianceServiceUnavailable : String := "ComplianceServiceUnavailable"

/-- The error `NotAuthorized` of the spec. -/
def NotAuthorized : String := "NotAuthorized"

/-- The error of a creation attempted before the contract owner was set. -/
def NotBootstrapped : String := "NotBootstrapped"

/-- The error `DuplicateAsset` of the spec. -/
def DuplicateAsset : String := "DuplicateAsset"

/-- Key of the singleton contract owner. -/
def smartContractOwner : String := "smartContractOwner"

/-- Modelled from the spec: `GetState` (the implementation of `TransactionContext.GetState`
is missing); `read(key)` is a direct pass-through read with no gating, `get(key) -> bytes|absent`,
and may fail with a store failure. -/
def GetState (w : World) (key : String) (st : State) : Except String (Option Bytes) :=
  match w.GetStateErr key with
  | some err => .error err
  | none => .ok (Store.get st.store key)

/-- Modelled from the spec: `GetUserID` (implementation missing); `callingPrincipalId() -> string`,
the resolved calling principal or the failure to resolve it. -/
def GetUserID (w : World) : Except String String :=
  w.UserID

/-- Modelled from the spec: `InvokeChaincode` (implementation missing);
`invoke(serviceName, args, channel) -> {statusCode, payload}`. The call is recorded in the trace. -/
def InvokeChaincode (w : World) (chaincodeName : String) (args : List Bytes) (channel : String)
    (st : State) : Response × State :=
  (w.Invoke chaincodeName args channel,
    { st with trace := st.trace ++ [Call.InvokeChaincode chaincodeName args channel] })

/-- Modelled from the spec: `GetKYC` (implementation missing); `isCompliant(principalId)` issues one
cross-service invocation of `"kyc"` on `"universalkyc"` with selector `"KycExists"` and the
principal as sole argument; an OK response with payload literal `"true"` is compliant, an OK
response with any other payload is a definite not compliant, a non-OK status is a service
failure. -/
def GetKYC (w : World) (userId : String) (st : State) : Except String Bool × State :=
  match InvokeChaincode w "kyc" ["KycExists", userId] "universalkyc" st with
  | (response, st1) =>
    if response.Status ≠ OK then (.error ComplianceServiceUnavailable, st1)
    else (.ok (decide (response.Payload = "true")), st1)

/-- Modelled from the spec: the stub's `PutState` (missing); `put(key, bytes)`, which may fail
with a store failure and then writes nothing. -/
def PutState (w : World) (key : String) (value : Bytes) (st : State) : Except String Unit × State :=
  match w.PutStateErr key value with
  | some err => (.error err, { st with trace := st.trace ++ [Call.PutState key value] })
  | none => (.ok (), { st with store := Store.put st.store key value,
                               trace := st.trace ++ [Call.PutState key value] })

/-- Modelled from the spec: the stub's `DelState` (missing); `delete(key)`, which may fail with a
store failure and then deletes nothing. -/
def DelState (w : World) (key : String) (st : State) : Except String Unit × State :=
  match w.DelStateErr key with
  | some err => (.error err, { st with trace := st.trace ++ [Call.DelState key] })
  | none => (.ok (), { st with store := Store.del st.store key,
                               trace := st.trace ++ [Call.DelState key] })

/-- Modelled from the spec: `PutStateWithKYC` (implementation missing); `putWithCompliance(key, value)`
resolves the calling principal, queries the compliance client for that principal; if compliant,
writes `value` at `key`; if not compliant, fails with `ComplianceRequired` and performs no write.
Errors of the collaborators are propagated. -/
def PutStateWithKYC (w : World) (key : String) (value : Bytes) (st : State) :
    Except String Unit × State :=
  match GetUserID w with
  | .error err => (.error err, st)
  | .ok userId =>
    match GetKYC w userId st with
    | (.error err, st1) => (.error err, st1)
    | (.ok kycCheck, st1) =>
      if !kycCheck then (.error ComplianceRequired, st1)
      else PutState w key value st1

/-- Modelled from the spec: `PutStateWithoutKYC` (implementation missing);
`putWithoutCompliance(key, value)` writes unconditionally. -/
def PutStateWithoutKYC (w : World) (key : String) (value : Bytes) (st : State) :
    Except String Unit × State :=
  PutState w key value st

/-- Modelled from the spec: `DelStateWithKYC` (implementation missing); `deleteWithCompliance(key)`
is symmetric to `putWithCompliance`, gated the same way. -/
def DelStateWithKYC (w : World) (key : String) (st : State) : Except String Unit × State :=
  match GetUserID w with
  | .error err => (.error err, st)
  | .ok userId =>
    match GetKYC w userId st with
    | (.error err, st1) => (.error err, st1)
    | (.ok kycCheck, st1) =>
      if !kycCheck then (.error ComplianceRequired, st1)
      else DelState w key st1

/-- Modelled from the spec: `DelStateWithoutKYC` (implementation missing);
`deleteWithoutCompliance(key)` deletes unconditionally. -/
def DelStateWithoutKYC (w : World) (key : String) (st : State) : Except String Unit × State :=
  DelState w key st

/-- Modelled from the spec: `SetEvent` (implementation missing); `emit(name, payload)`. An empty
event name is refused (`TestSetEvent`); the sink may fail, and then nothing is emitted. -/
def SetEvent (w : World) (name : String) (payload : Bytes) (st : State) :
    Except String Unit × State :=
  if name = "" then
    (.error "event name can not be empty string",
      { st with trace := st.trace ++ [Call.SetEvent name payload] })
  else
    match w.SetEventErr name payload with
    | some err => (.error err, { st with trace := st.trace ++ [Call.SetEvent name payload] })
    | none => (.ok (), { st with events := st.events ++ [(name, payload)],
                                 trace := st.trace ++ [Call.SetEvent name payload] })

/-- The rich query of the duplicate-mint check, as the tests spell it. -/
def mintedQuery (id : String) (docType : String) : String :=
  "\x7b\"selector\": \x7b\"id\": \"" ++ id ++ "\", \"docType\": \"" ++ docType ++ "\"\x7d\x7d"

/-- Modelled from the spec: `IsMinted` (implementation missing); the duplicate-mint check executes
a rich query selecting the stored records matching `{id, docType}` and reports whether any
result exists; the query itself may fail with a store failure. -/
def IsMinted (w : World) (st : State) (id : String) (docType : String) : Except String Bool :=
  match w.GetQueryResultErr (mintedQuery id docType) with
  | some err => .error err
  | none =>
    .ok (st.store.any (fun kv =>
      match w.Unmarshal kv.2 with
      | .ok niu => decide (niu.Id = id ∧ niu.DocType = docType)
      | .error _ => false))

/-- Modelled from the spec: `ValidateCreateTokenTransaction` (implementation missing); the
creation-validation check (i) confirms the contract has been bootstrapped (the owner key holds a
non-empty value), (ii) confirms the acting principal is authorized to mint, and (iii) runs the
duplicate-mint check, failing with `DuplicateAsset` if any result exists. It changes nothing. -/
def ValidateCreateTokenTransaction (w : World) (id : String) (docType : String)
    (account : List String) (st : State) : Except String Unit :=
  match GetState w smartContractOwner st with
  | .error err => .error err
  | .ok none => .error NotBootstrapped
  | .ok (some owner) =>
    if owner = "" then .error NotBootstrapped
    else
      match GetUserID w with
      | .error err => .error err
      | .ok operator =>
        if !(w.MintAuthorized operator account) then .error NotAuthorized
        else
          match IsMinted w st id docType with
          | .error err => .error err
          | .ok true => .error DuplicateAsset
          | .ok false => .ok ()

/-- The error `AlreadyInitialized` of the spec. -/
def AlreadyInitialized : String := "AlreadyInitialized"

/-- The error `ComplianceRegistrationFailed` of the spec. -/
def ComplianceRegistrationFailed : String := "ComplianceRegistrationFailed"

/-- Modelled from the spec: the owner `Initialize` of the SDK (implementation missing);
`initializeOwner()` reads the owner key; fails with `AlreadyInitialized` if a value is already
present (a non-empty value: `TestInitialize` initializes over an empty one); otherwise resolves
the calling principal and writes its identifier as the new owner value. Not compliance-gated:
the write is the stub's `PutState`. -/
def Initialize (w : World) (st : State) : Except String Unit × State :=
  match GetState w smartContractOwner st with
  | .error err => (.error err, st)
  | .ok value =>
    if value.getD "" ≠ "" then (.error AlreadyInitialized, st)
    else
      match GetUserID w with
      | .error err => (.error err, st)
      | .ok operator => PutState w smartContractOwner operator st

/-- Modelled from the spec: `PutKYC` (implementation missing);
`registerCompliance(id, externalId, proofHash)` issues one cross-service invocation of `"kyc"` on
`"universalkyc"` with the creation selector `"CreateKyc"` and the three values as arguments, and
fails with `ComplianceRegistrationFailed` if the service responds with a non-OK status. -/
def PutKYC (w : World) (id : String) (kycId : String) (kycHash : String) (st : State) :
    Except String Unit × State :=
  match InvokeChaincode w "kyc" ["CreateKyc", id, kycId, kycHash] "universalkyc" st with
  | (response, st1) =>
    if response.Status ≠ OK then (.error ComplianceRegistrationFailed, st1)
    else (.ok (), st1)

/-- The `TransactionContext` structure (transaction_context.go, lines 386-389); the types of the
stub and of the client identity are Go interface types, taken as parameters. -/
structure TransactionContext (Stub : Type) (Identity : Type) where
  stub : Stub
  clientIdentity : Identity

/-- The `SetStub` method: stores the passed stub in the transaction context. -/
def TransactionContext.SetStub {Stub Identity : Type} (ctx : TransactionContext Stub Identity)
    (stub : Stub) : TransactionContext Stub Identity :=
  { ctx with stub := stub }

/-- The `SetClientIdentity` method: stores the passed identity in the transaction context. -/
def TransactionContext.SetClientIdentity {Stub Identity : Type}
    (ctx : TransactionContext Stub Identity) (ci : Identity) : TransactionContext Stub Identity :=
  { ctx with clientIdentity := ci }

/-- The `GetStub` method: returns the current set stub. -/
def TransactionContext.GetStub {Stub Identity : Type} (ctx : TransactionContext Stub Identity) :
    Stub :=
  ctx.stub

/-- The `GetClientIdentity` method: returns the current set client identity. -/
def TransactionContext.GetClientIdentity {Stub Identity : Type}
    (ctx : TransactionContext Stub Identity) : Identity :=
  ctx.clientIdentity

end kalpsdk

namespace smartcontract

open kalpsdk

/-- Go `slices.Contains(s, v)`. -/
def slicesContains (s : List String) (v : String) : Bool :=
  decide (v ∈ s)

/-- Go `%v` of a `[]string`: the elements separated by blanks, in square brackets. -/
def formatStrings (s : List String) : String :=
  "[" ++ " ".intercalate s ++ "]"

/-- The `Initialize` operation of the example contract (smartcontract.go, lines 44-83). -/
def Initialize (w : World) (data : String) (st : State) : Except String Bool × State :=
  match w.UnmarshalMap data with
  | .error err => (.error ("failed to fetch input " ++ err), st)
  | .ok inputData =>
    match inputData "name" with
    | none => (.error "name is required field", st)
    | some name =>
      match inputData "symbol" with
      | none => (.error "name is required field", st)
      | some symbol =>
        match GetState w nameKey st with
        | .error err => (.error ("failed to get token name from state: " ++ err), st)
        | .ok (some _) =>
          (.error "contract options are already set, client is not authorized to change them", st)
        | .ok none =>
          match PutStateWithKYC w nameKey name st with
          | (.error err, st1) => (.error ("failed to set token name: " ++ err), st1)
          | (.ok (), st1) =>
            match PutStateWithKYC w symbolKey symbol st1 with
            | (.error err, st2) => (.error ("failed to set token symbol: " ++ err), st2)
            | (.ok (), st2) => (.ok true, st2)

/-- The `CreateNIU` operation (smartcontract.go, lines 88-136). -/
def CreateNIU (w : World) (data : String) (st : State) : Except String Unit × State :=
  match w.Unmarshal data with
  | .error errs => (.error ("failed to parse data: " ++ errs), st)
  | .ok niu =>
    if niu.AssetDigest = "" then (.error "assetDigest can not be null", st)
    else if niu.Status ≠ statusInProgress ∧ niu.Status ≠ statusCompleted then
      (.error "not a valid Status", st)
    else
      match ValidateCreateTokenTransaction w niu.Id niu.DocType niu.Account st with
      | .error err => (.error err, st)
      | .ok () =>
        match w.Marshal niu with
        | .error err => (.error ("unable to Marshal Token struct : " ++ err), st)
        | .ok niuJSON =>
          match w.MarshalMetaData niu.MetaData with
          | .error err =>
            (.error ("failed to marshal the metadata: " ++ err ++ "%!(EXTRA []uint8=[])"), st)
          | .ok _ =>
            match PutStateWithKYC w niu.Id niuJSON st with
            | (.error err, st1) =>
              (.error ("unable to put Asset struct in statedb: " ++ err), st1)
            | (.ok (), st1) => (.ok (), st1)

/-- The `ReadNIU` operation (smartcontract.go, lines 139-168). -/
def ReadNIU (w : World) (id : String) (st : State) : Except String NIU :=
  match GetState w id st with
  | .error err => .error ("failed to read from world state: " ++ err)
  | .ok none => .error ("the NIU asset with ID " ++ id ++ " does not exist")
  | .ok (some niuJSON) =>
    match w.Unmarshal niuJSON with
    | .error err => .error ("unable to unmarshal NIU struct: " ++ err)
    | .ok niu =>
      match GetUserID w with
      | .error err => .error ("failed to get client id: " ++ err)
      | .ok operator =>
        if !slicesContains niu.Account operator then
          .error ("not a valid owner " ++ formatStrings niu.Account ++
            " for the NIU asset with ID " ++ id)
        else .ok niu

/-- The loop of `TransferNIU` over the receivers (smartcontract.go, lines 195-206): for each
receiver in order, the KYC lookup, then the KYC answer, then the membership in the account. -/
def checkReceivers (w : World) (account : List String) :
    List String → State → Except String Unit × State
  | [], st => (.ok (), st)
  | r :: rest, st =>
    match GetKYC w r st with
    | (.error err, st1) =>
      (.error ("failed to perform KYC check for user:" ++ r ++ ", error:" ++ err), st1)
    | (.ok kycCheck, st1) =>
      if !kycCheck then (.error ("user " ++ r ++ " is not KYCed"), st1)
      else if slicesContains account r then (.error "transfer to self is not allowed", st1)
      else checkReceivers w account rest st1

/-- The `TransferNIU` operation (smartcontract.go, lines 172-239). -/
def TransferNIU (w : World) (senders : List String) (receivers : List String) (id : String)
    (docType : String) (amount : Nat) (timeStamp : String) (st : State) :
    Except String Unit × State :=
  match GetState w id st with
  | .error err => (.error ("failed to read from world state: " ++ err), st)
  | .ok none => (.error ("the Asset " ++ id ++ " does not exist"), st)
  | .ok (some niuJSON) =>
    match w.Unmarshal niuJSON with
    | .error err => (.error ("failed to unmarshal struct: " ++ err), st)
    | .ok niu0 =>
      match checkReceivers w niu0.Account receivers st with
      | (.error err, st1) => (.error err, st1)
      | (.ok (), st1) =>
        let niu : NIU := { niu0 with Account := receivers }
        match w.Marshal niu with
        | .error err => (.error ("failed to marshal struct: " ++ err), st1)
        | .ok newniuJSON =>
          if niu.Status ≠ statusCompleted then
            (.error "asset is not applicable to Transfer", st1)
          else
            match PutStateWithKYC w id newniuJSON st1 with
            | (.error err, st2) =>
              (.error ("unable to put Asset struct in statedb: " ++ err), st2)
            | (.ok (), st2) =>
              match SetEvent w "TransferNIU" newniuJSON st2 with
              | (.error err, st3) => (.error ("unable to setEvent TransferNIU: " ++ err), st3)
              | (.ok (), st3) => (.ok (), st3)

/-- The `BurnTokens` operation (smartcontract.go, lines 242-302). -/
def BurnTokens (w : World) (id : String) (account : String) (amount : Nat) (st : State) :
    Except String Unit × State :=
  match GetState w id st with
  | .error err => (.error ("failed to read from world state: " ++ err), st)
  | .ok none => (.error ("the asset " ++ id ++ " does not exist"), st)
  | .ok (some niuJSON) =>
    match w.Unmarshal niuJSON with
    | .error err => (.error ("failed to unmarshal struct: " ++ err), st)
    | .ok niu =>
      match GetUserID w with
      | .error err => (.error ("failed to get client ID: " ++ err), st)
      | .ok operator =>
        if !slicesContains niu.Account operator then
          (.error "only the asset owner can initiate a burn", st)
        else if niu.Status ≠ statusCompleted then
          (.error "the asset is not applicable for burning tokens", st)
        else
          match DelStateWithoutKYC w id st with
          | (.error err, st1) =>
            (.error ("unable to delete asset struct in state database: " ++ err), st1)
          | (.ok (), st1) =>
            match SetEvent w "DeleteNIU" niuJSON st1 with
            | (.error err, st2) => (.error ("unable to set event DeleteNIU: " ++ err), st2)
            | (.ok (), st2) => (.ok (), st2)

end smartcontract

/-! ## Vocabulary of the statements -/

namespace kalpsdk

open smartcontract

/-- The stub call by which `GetKYC` consults the compliance service for a principal. -/
def kycCall (userId : String) : Call :=
  Call.InvokeChaincode "kyc" ["KycExists", userId] "universalkyc"

/-- The answer of the compliance lookup for a principal: the result of `GetKYC`, which does not
depend on the state. -/
def kycAnswer (w : World) (userId : String) : Except String Bool :=
  (GetKYC w userId { store := [], events := [], trace := [] }).1

/-- A call that puts or deletes a key of the store. -/
def Call.isMutation : Call → Bool
  | Call.PutState _ _ => true
  | Call.DelState _ => true
  | _ => false

/-- The puts and deletes of a trace, in order. -/
def writes (t : List Call) : List Call :=
  t.filter Call.isMutation

/-- Whether every put or delete of a trace comes after a compliance lookup for `P` in that trace. -/
def gatedTrace (P : String) : List Call → Bool
  | [] => true
  | c :: rest => if c = kycCall P then true else !c.isMutation && gatedTrace P rest

/-- The record `r` is stored at `id`: the read of `id` returns bytes `b`, and `b` decodes to `r`. -/
def Stored (w : World) (st : State) (id : String) (b : Bytes) (r : NIU) : Prop :=
  GetState w id st = .ok (some b) ∧ w.Unmarshal b = .ok r

/-- The store already contains a record with the given id and docType: some key holds bytes that
decode to a record with these two fields. -/
def DuplicateStored (w : World) (st : State) (id : String) (docType : String) : Prop :=
  ∃ (k : String) (b : Bytes) (r : NIU),
    Store.get st.store k = some b ∧ w.Unmarshal b = .ok r ∧ r.Id = id ∧ r.DocType = docType

/-- Decoding with `reader` what `writer` encoded for the record `r` gives back `r`: the round trip
of `json.Marshal` and `json.Unmarshal` on `r`. -/
def RoundTrip (writer reader : World) (r : NIU) : Prop :=
  ∀ v : Bytes, writer.Marshal r = .ok v → reader.Unmarshal v = .ok r

/-- Before the call the key `k` holds a record whose status is COMPLETED. -/
def CompletedAt (w : World) (st : State) (k : String) : Prop :=
  ∃ (b : Bytes) (r : NIU),
    Store.get st.store k = some b ∧ w.Unmarshal b = .ok r ∧ r.Status = statusCompleted

/-- Every record present at key `k` in the store `after` has status COMPLETED. -/
def StillCompletedAt (w : World) (after : Store) (k : String) : Prop :=
  ∀ (b : Bytes) (r : NIU),
    Store.get after k = some b → w.Unmarshal b = .ok r → r.Status = statusCompleted

end kalpsdk

namespace smartcontract

open kalpsdk

/-- One of the checks of `TransferNIU` fails: the record is absent or undecodable, a receiver's
compliance lookup errors or answers false, a receiver is already in the account list, the status
is not COMPLETED, or the caller's compliance gate on the write rejects. -/
def TransferCheckFails (w : World) (receivers : List String) (id : String) (st : State) : Prop :=
  GetState w id st = .ok none
  ∨ (∃ b err, GetState w id st = .ok (some b) ∧ w.Unmarshal b = .error err)
  ∨ (∃ x, x ∈ receivers ∧ kycAnswer w x ≠ .ok true)
  ∨ (∃ b r x, Stored w st id b r ∧ x ∈ receivers ∧ x ∈ r.Account)
  ∨ (∃ b r, Stored w st id b r ∧ r.Status ≠ statusCompleted)
  ∨ (∀ P, GetUserID w = .ok P → kycAnswer w P ≠ .ok true)

end smartcontract

/-! ## A concrete world, for evaluating the operations -/

namespace fixture

open kalpsdk smartcontract

/-- A JSON string literal (for text that needs no escaping). -/
def quote (s : String) : String :=
  "\"" ++ s ++ "\""

/-- A JSON array of string literals. -/
def quoteAll (xs : List String) : String :=
  "[" ++ ",".intercalate (xs.map quote) ++ "]"

/-- The JSON text of an `NIU`, fields in declaration order, `amount` omitted when zero. -/
def render (r : NIU) : Bytes :=
  "\x7b\"id\":" ++ quote r.Id ++ ",\"docType\":" ++ quote r.DocType ++
  ",\"name\":" ++ quote r.Name ++ ",\"type\":" ++ quote r.Typ ++
  ",\"desc\":" ++ quote r.Desc ++ ",\"status\":" ++ quote r.Status ++
  ",\"account\":" ++ quoteAll r.Account ++ ",\"metadata\":" ++ r.MetaData ++
  (if r.Amount = 0 then "" else ",\"amount\":" ++ toString r.Amount) ++
  ",\"uri\":" ++ quote r.Uri ++ ",\"assetDigest\":" ++ quote r.AssetDigest ++ "\x7d"

/-- The asset of the scenarios: completed, held by alice. -/
def niuA1 : NIU :=
  { Id := "A1", DocType := "ASSET-X", Name := "", Typ := "", Desc := "", Status := "COMPLETED",
    Account := ["alice"], MetaData := "null", Amount := 0, Uri := "", AssetDigest := "d1" }

/-- The same asset after a transfer to carol. -/
def niuA1carol : NIU :=
  { niuA1 with Account := ["carol"] }

/-- An asset still in progress, held by alice. -/
def niuB2 : NIU :=
  { niuA1 with Id := "B2", Status := "INPROGRESS" }

/-- A second record with the id of A1, of another docType and still in progress. -/
def niuA1y : NIU :=
  { niuA1 with DocType := "ASSET-Y", Status := "INPROGRESS" }

/-- An input with the id and docType of A1 and an empty assetDigest. -/
def niuA1bad : NIU :=
  { niuA1 with AssetDigest := "" }

/-- The asset A1 with an empty account list. -/
def niuA1none : NIU :=
  { niuA1 with Account := [] }

/-- The records whose JSON text the fixture decoder knows. -/
def documents : List NIU :=
  [niuA1, niuA1carol, niuB2, niuA1y, niuA1bad, niuA1none]

/-- Decoder of the fixture: the inverse of `render` on `documents`, a syntax error elsewhere. -/
def decode (b : Bytes) : Except String NIU :=
  match documents.find? (fun r => decide (render r = b)) with
  | some r => .ok r
  | none => .error "invalid character"

/-- A world with the given caller and set of KYCed principals, and no ledger failure. -/
def world (caller : String) (kyced : List String) : World :=
  { Unmarshal := decode
    Marshal := fun r => .ok (render r)
    MarshalMetaData := fun m => .ok m
    UnmarshalMap := fun _ => .error "unexpected end of JSON input"
    UserID := .ok caller
    Invoke := fun chaincodeName args channel =>
      if chaincodeName = "kyc" ∧ channel = "universalkyc" then
        match args with
        | ["KycExists", userId] =>
          if userId ∈ kyced then { Status := OK, Payload := "true" }
          else { Status := OK, Payload := "false" }
        | _ => { Status := ERROR, Payload := "unknown function" }
      else { Status := ERROR, Payload := "unknown chaincode" }
    GetStateErr := fun _ => none
    PutStateErr := fun _ _ => none
    DelStateErr := fun _ => none
    SetEventErr := fun _ _ => none
    GetQueryResultErr := fun _ => none
    MintAuthorized := fun operator account => decide (operator ∈ account) }

/-- A ledger holding the two assets, with nothing emitted and nothing called yet. -/
def ledger : State :=
  { store := [("A1", render niuA1), ("B2", render niuB2)], events := [], trace := [] }

/-- The ledger after alice transferred the asset A1 to carol. -/
def transferred : State :=
  (TransferNIU (world "alice" ["alice", "carol"]) ["alice"] ["carol"] "A1" "ASSET-X" 0 "" ledger).2

/-- The ledger once alice is the contract owner, holding no asset yet. -/
def genesis : State :=
  { store := [("smartContractOwner", "alice")], events := [], trace := [] }

/-- The ledger after alice, owner and KYCed, created the asset A1 on `genesis`. -/
def minted : State :=
  (CreateNIU (world "alice" ["alice"]) (render niuA1) genesis).2

/-- The world of `world`, with an event sink that refuses every event. -/
def worldEventDown (caller : String) (kyced : List String) : World :=
  { world caller kyced with SetEventErr := fun _ _ => some "event sink unavailable" }

/-- The JSON input of the token options. -/
def options : String :=
  "\x7b\"name\":\"Kalp\",\"symbol\":\"KLP\"\x7d"

/-- The world of `world`, whose decoder of JSON objects knows the input `options`. -/
def worldOptions (caller : String) (kyced : List String) : World :=
  { world caller kyced with
    UnmarshalMap := fun d =>
      if d = options then
        .ok (fun k => if k = "name" then some "Kalp" else if k = "symbol" then some "KLP" else none)
      else .error "unexpected end of JSON input" }

/-- A ledger holding nothing at all. -/
def blank : State :=
  { store := [], events := [], trace := [] }

/-- A ledger whose owner key holds the empty value, as in `TestInitialize`. -/
def emptyOwner : State :=
  { store := [("smartContractOwner", "")], events := [], trace := [] }

end fixture

/-! ## Lemmas on the store and on the SDK operations -/

namespace kalpsdk

open smartcontract

theorem GetKYC_eq (w : World) (userId : String) (st : State) :
    GetKYC w userId st = (kycAnswer w userId, { st with trace := st.trace ++ [kycCall userId] }) := by
  unfold kycAnswer GetKYC InvokeChaincode kycCall
  by_cases h : (w.Invoke "kyc" ["KycExists", userId] "universalkyc").Status = OK <;> simp [h]

theorem Store.get_del_same (s : Store) (key : String) : Store.get (Store.del s key) key = none := by
  induction s with
  | nil => rfl
  | cons kv rest ih =>
    obtain ⟨k, v⟩ := kv
    by_cases h : k = key
    · simpa [Store.del, List.filter_cons, h] using ih
    · simpa [Store.del, List.filter_cons, h, Store.get] using ih

theorem Store.get_del_other (s : Store) (key k0 : String) (hk : k0 ≠ key) :
    Store.get (Store.del s key) k0 = Store.get s k0 := by
  induction s with
  | nil => rfl
  | cons kv rest ih =>
    obtain ⟨k, v⟩ := kv
    unfold Store.del at ih ⊢
    by_cases h : k = key
    · have h0 : ¬ k = k0 := fun e => hk (e ▸ h)
      rw [List.filter_cons_of_neg (by simp [h])]
      rw [ih]
      simp [Store.get, h0]
    · rw [List.filter_cons_of_pos (by simp [h])]
      by_cases h1 : k = k0
      · simp [Store.get, h1]
      · simp only [Store.get, h1, if_false]
        exact ih

theorem Store.get_put_same (s : Store) (key : String) (value : Bytes) :
    Store.get (Store.put s key value) key = some value := by
  simp [Store.put, Store.get]

theorem Store.get_put_other (s : Store) (key k0 : String) (value : Bytes) (hk : k0 ≠ key) :
    Store.get (Store.put s key value) k0 = Store.get s k0 := by
  have h0 : key ≠ k0 := fun e => hk e.symm
  simp [Store.put, Store.get, h0, Store.get_del_other s key k0 hk]

theorem writes_append (t u : List Call) : writes (t ++ u) = writes t ++ writes u := by
  simp [writes]

theorem writes_kycCall (userId : String) : writes [kycCall userId] = [] := by
  simp [writes, kycCall, Call.isMutation]

theorem writes_map_kycCall (xs : List String) : writes (xs.map kycCall) = [] := by
  induction xs with
  | nil => rfl
  | cons x rest ih =>
    have h : writes (kycCall x :: rest.map kycCall) = writes ([kycCall x] ++ rest.map kycCall) := rfl
    rw [List.map_cons, h, writes_append, writes_kycCall, ih]
    rfl

theorem isMutation_kycCall (userId : String) : (kycCall userId).isMutation = false := rfl

theorem isMutation_of_mem_map_kycCall (xs : List String) (c : Call)
    (h : c ∈ xs.map kycCall) : c.isMutation = false := by
  obtain ⟨x, _, rfl⟩ := List.mem_map.mp h
  rfl

theorem gatedTrace_map_append (P : String) (xs : List String) (t : List Call) :
    gatedTrace P t = true → gatedTrace P (xs.map kycCall ++ t) = true := by
  intro ht
  induction xs with
  | nil => simpa using ht
  | cons x rest ih =>
    simp only [List.map_cons, List.cons_append, gatedTrace]
    by_cases h : kycCall x = kycCall P
    · simp [h]
    · simp [h, isMutation_kycCall, ih]

theorem gatedTrace_of_no_mutation (P : String) (t : List Call)
    (h : ∀ c ∈ t, c.isMutation = false) : gatedTrace P t = true := by
  induction t with
  | nil => rfl
  | cons c rest ih =>
    simp only [gatedTrace]
    by_cases hc : c = kycCall P
    · simp [hc]
    · have h1 := h c (List.mem_cons_self _ _)
      have h2 := ih (fun d hd => h d (List.mem_cons_of_mem _ hd))
      simp [hc, h1, h2]

/-- The gate of `PutStateWithKYC`, spelled out on the answers of the collaborators. -/
theorem PutStateWithKYC_eq (w : World) (key : String) (value : Bytes) (st : State) :
    PutStateWithKYC w key value st =
      match GetUserID w with
      | .error err => (.error err, st)
      | .ok userId =>
        match kycAnswer w userId with
        | .error err => (.error err, { st with trace := st.trace ++ [kycCall userId] })
        | .ok false =>
          (.error ComplianceRequired, { st with trace := st.trace ++ [kycCall userId] })
        | .ok true => PutState w key value { st with trace := st.trace ++ [kycCall userId] } := by
  unfold PutStateWithKYC
  cases hu : GetUserID w with
  | error e => rfl
  | ok userId =>
    simp only [GetKYC_eq]
    cases hk : kycAnswer w userId with
    | error e => rfl
    | ok b => cases b <;> rfl

/-- The gate of `DelStateWithKYC`, spelled out on the answers of the collaborators. -/
theorem DelStateWithKYC_eq (w : World) (key : String) (st : State) :
    DelStateWithKYC w key st =
      match GetUserID w with
      | .error err => (.error err, st)
      | .ok userId =>
        match kycAnswer w userId with
        | .error err => (.error err, { st with trace := st.trace ++ [kycCall userId] })
        | .ok false =>
          (.error ComplianceRequired, { st with trace := st.trace ++ [kycCall userId] })
        | .ok true => DelState w key { st with trace := st.trace ++ [kycCall userId] } := by
  unfold DelStateWithKYC
  cases hu : GetUserID w with
  | error e => rfl
  | ok userId =>
    simp only [GetKYC_eq]
    cases hk : kycAnswer w userId with
    | error e => rfl
    | ok b => cases b <;> rfl

end kalpsdk

/-! ## Lemmas on the operations of the contract -/

namespace smartcontract

open kalpsdk

theorem slicesContains_iff (s : List String) (v : String) : slicesContains s v = true ↔ v ∈ s := by
  simp [slicesContains]

/-- One iteration of the loop over the receivers, on the answer of the compliance lookup. -/
theorem checkReceivers_cons (w : World) (account : List String) (x : String) (rest : List String)
    (st : State) :
    checkReceivers w account (x :: rest) st =
      match kycAnswer w x with
      | .error err =>
        (.error ("failed to perform KYC check for user:" ++ x ++ ", error:" ++ err),
          { st with trace := st.trace ++ [kycCall x] })
      | .ok false =>
        (.error ("user " ++ x ++ " is not KYCed"), { st with trace := st.trace ++ [kycCall x] })
      | .ok true =>
        if x ∈ account then
          (.error "transfer to self is not allowed", { st with trace := st.trace ++ [kycCall x] })
        else checkReceivers w account rest { st with trace := st.trace ++ [kycCall x] } := by
  rw [checkReceivers, GetKYC_eq]
  cases hk : kycAnswer w x with
  | error e => rfl
  | ok b =>
    cases b
    · rfl
    · by_cases hx : x ∈ account <;> simp [slicesContains, hx]

/-- Receivers that pass both checks are skipped by the loop, leaving only their lookups. -/
theorem checkReceivers_append (w : World) (account : List String) (pre rest : List String)
    (st : State) (hpre : ∀ y ∈ pre, kycAnswer w y = .ok true ∧ y ∉ account) :
    checkReceivers w account (pre ++ rest) st =
      checkReceivers w account rest { st with trace := st.trace ++ pre.map kycCall } := by
  induction pre generalizing st with
  | nil => simp
  | cons y more ih =>
    have hy := hpre y (List.mem_cons_self _ _)
    have hmore : ∀ z ∈ more, kycAnswer w z = .ok true ∧ z ∉ account :=
      fun z hz => hpre z (List.mem_cons_of_mem _ hz)
    rw [List.cons_append, checkReceivers_cons, hy.1]
    simp only [hy.2, if_false]
    rw [ih _ hmore]
    simp

theorem checkReceivers_pass (w : World) (account : List String) (receivers : List String)
    (st : State) (hall : ∀ y ∈ receivers, kycAnswer w y = .ok true ∧ y ∉ account) :
    checkReceivers w account receivers st =
      (.ok (), { st with trace := st.trace ++ receivers.map kycCall }) := by
  have h := checkReceivers_append w account receivers [] st hall
  rw [List.append_nil] at h
  rw [h]
  rfl

theorem checkReceivers_fail (w : World) (account : List String) (receivers : List String)
    (st : State) (hsome : ¬ ∀ y ∈ receivers, kycAnswer w y = .ok true ∧ y ∉ account) :
    ∃ (err : String) (looked : List String), checkReceivers w account receivers st =
      (.error err, { st with trace := st.trace ++ looked.map kycCall }) := by
  induction receivers generalizing st with
  | nil => exact absurd (fun y hy => absurd hy (List.not_mem_nil y)) hsome
  | cons x rest ih =>
    rw [checkReceivers_cons]
    cases hk : kycAnswer w x with
    | error e => exact ⟨_, [x], rfl⟩
    | ok b =>
      cases b
      · exact ⟨_, [x], rfl⟩
      · by_cases hx : x ∈ account
        · simp only [hx, if_true]
          exact ⟨_, [x], rfl⟩
        · simp only [hx, if_false]
          have hrest : ¬ ∀ y ∈ rest, kycAnswer w y = .ok true ∧ y ∉ account := by
            intro hall
            apply hsome
            intro y hy
            rcases List.mem_cons.mp hy with rfl | hy
            · exact ⟨hk, hx⟩
            · exact hall y hy
          obtain ⟨err, looked, h⟩ := ih { st with trace := st.trace ++ [kycCall x] } hrest
          refine ⟨err, x :: looked, ?_⟩
          rw [h]
          simp

/-- Packaging of a failure that left only compliance lookups in the trace. -/
theorem early_exit (st : State) (err : String) (looked : List String) (st2 : State)
    (h : st2 = { st with trace := st.trace ++ looked.map kycCall }) :
    ∃ (err0 : String) (looked0 : List String),
      ((.error err, st2) : Except String Unit × State) =
        (.error err0, { st with trace := st.trace ++ looked0.map kycCall }) :=
  ⟨err, looked, by rw [h]⟩

/-- Every run of `TransferNIU` either fails before any write is attempted, having issued only
compliance lookups, or passes every check and reaches the ledger write, whose failure, the
failure of the event sink, or success then decide the outcome. -/
theorem TransferNIU_outcome (w : World) (senders receivers : List String) (id docType : String)
    (amount : Nat) (timeStamp : String) (st : State) :
    (∃ (err : String) (looked : List String),
        TransferNIU w senders receivers id docType amount timeStamp st =
          (.error err, { st with trace := st.trace ++ looked.map kycCall }))
    ∨ (∃ (b : Bytes) (r : NIU) (v : Bytes) (P : String),
        Stored w st id b r
        ∧ (∀ x ∈ receivers, kycAnswer w x = .ok true ∧ x ∉ r.Account)
        ∧ w.Marshal { r with Account := receivers } = .ok v
        ∧ r.Status = statusCompleted
        ∧ GetUserID w = .ok P ∧ kycAnswer w P = .ok true
        ∧ ((∃ err : String, TransferNIU w senders receivers id docType amount timeStamp st =
              (.error err, { st with trace :=
                st.trace ++ receivers.map kycCall ++ [kycCall P, Call.PutState id v] }))
          ∨ (∃ err : String, TransferNIU w senders receivers id docType amount timeStamp st =
              (.error err, { store := Store.put st.store id v, events := st.events, trace :=
                st.trace ++ receivers.map kycCall ++
                  [kycCall P, Call.PutState id v, Call.SetEvent "TransferNIU" v] }))
          ∨ TransferNIU w senders receivers id docType amount timeStamp st =
              (.ok (), { store := Store.put st.store id v,
                         events := st.events ++ [("TransferNIU", v)],
                         trace := st.trace ++ receivers.map kycCall ++
                  [kycCall P, Call.PutState id v, Call.SetEvent "TransferNIU" v] }))) := by
  cases hg : GetState w id st with
  | error e =>
    simp only [TransferNIU, hg]
    exact Or.inl (early_exit st _ [] _ (by simp))
  | ok ob =>
    cases ob with
    | none =>
      simp only [TransferNIU, hg]
      exact Or.inl (early_exit st _ [] _ (by simp))
    | some b =>
      cases hu : w.Unmarshal b with
      | error e =>
        simp only [TransferNIU, hg, hu]
        exact Or.inl (early_exit st _ [] _ (by simp))
      | ok r =>
        by_cases hall : ∀ x ∈ receivers, kycAnswer w x = .ok true ∧ x ∉ r.Account
        · simp only [TransferNIU, hg, hu, checkReceivers_pass w r.Account receivers st hall]
          cases hm : w.Marshal { r with Account := receivers } with
          | error e =>
            simp only []
            exact Or.inl (early_exit st _ receivers _ rfl)
          | ok v =>
            by_cases hs : r.Status = statusCompleted
            · simp only [hs, ne_eq, not_true_eq_false, if_false]
              rw [PutStateWithKYC_eq]
              cases hP : GetUserID w with
              | error e =>
                simp only []
                exact Or.inl (early_exit st _ receivers _ rfl)
              | ok P =>
                cases hk : kycAnswer w P with
                | error e =>
                  simp only [hk]
                  exact Or.inl (early_exit st _ (receivers ++ [P]) _ (by simp))
                | ok ans =>
                  cases ans
                  · simp only [hk]
                    exact Or.inl (early_exit st _ (receivers ++ [P]) _ (by simp))
                  · refine Or.inr ⟨b, r, v, P, ⟨hg, hu⟩, hall, hm, hs, rfl, hk, ?_⟩
                    simp only [hk, PutState]
                    cases hput : w.PutStateErr id v with
                    | some e =>
                      exact Or.inl ⟨"unable to put Asset struct in statedb: " ++ e, by simp⟩
                    | none =>
                      simp only [SetEvent]
                      cases hev : w.SetEventErr "TransferNIU" v with
                      | some e =>
                        exact Or.inr (Or.inl ⟨"unable to setEvent TransferNIU: " ++ e, by simp⟩)
                      | none => exact Or.inr (Or.inr (by simp))
            · simp only [ne_eq, hs, not_false_eq_true, if_true]
              exact Or.inl (early_exit st _ receivers _ rfl)
        · obtain ⟨err, looked, hfail⟩ := checkReceivers_fail w r.Account receivers st hall
          simp only [TransferNIU, hg, hu, hfail]
          exact Or.inl ⟨err, looked, rfl⟩

/-- Every run of `CreateNIU` either fails before any write is attempted, having issued at most the
compliance lookup of the gate, or reaches the ledger write behind the gate. -/
theorem CreateNIU_outcome (w : World) (data : String) (st : State) :
    (∃ (err : String) (looked : List String),
        CreateNIU w data st = (.error err, { st with trace := st.trace ++ looked.map kycCall }))
    ∨ (∃ (niu : NIU) (v : Bytes) (P : String),
        w.Unmarshal data = .ok niu ∧ w.Marshal niu = .ok v
        ∧ GetUserID w = .ok P ∧ kycAnswer w P = .ok true
        ∧ ((∃ err : String, CreateNIU w data st =
              (.error err, { st with trace := st.trace ++ [kycCall P, Call.PutState niu.Id v] }))
          ∨ CreateNIU w data st =
              (.ok (), { store := Store.put st.store niu.Id v, events := st.events,
                         trace := st.trace ++ [kycCall P, Call.PutState niu.Id v] }))) := by
  cases hu : w.Unmarshal data with
  | error e =>
    simp only [CreateNIU, hu]
    exact Or.inl (early_exit st _ [] _ (by simp))
  | ok niu =>
    by_cases hd : niu.AssetDigest = ""
    · simp only [CreateNIU, hu, if_pos hd]
      exact Or.inl (early_exit st _ [] _ (by simp))
    · by_cases hs : niu.Status ≠ statusInProgress ∧ niu.Status ≠ statusCompleted
      · simp only [CreateNIU, hu, if_neg hd, if_pos hs]
        exact Or.inl (early_exit st _ [] _ (by simp))
      · cases hv : ValidateCreateTokenTransaction w niu.Id niu.DocType niu.Account st with
        | error e =>
          simp only [CreateNIU, hu, if_neg hd, if_neg hs, hv]
          exact Or.inl (early_exit st _ [] _ (by simp))
        | ok u =>
          cases hm : w.Marshal niu with
          | error e =>
            simp only [CreateNIU, hu, if_neg hd, if_neg hs, hv, hm]
            exact Or.inl (early_exit st _ [] _ (by simp))
          | ok v =>
            cases hmm : w.MarshalMetaData niu.MetaData with
            | error e =>
              simp only [CreateNIU, hu, if_neg hd, if_neg hs, hv, hm, hmm]
              exact Or.inl (early_exit st _ [] _ (by simp))
            | ok mb =>
              simp only [CreateNIU, hu, if_neg hd, if_neg hs, hv, hm, hmm]
              rw [PutStateWithKYC_eq]
              cases hP : GetUserID w with
              | error e =>
                simp only []
                exact Or.inl (early_exit st _ [] _ (by simp))
              | ok P =>
                cases hk : kycAnswer w P with
                | error e =>
                  simp only [hk]
                  exact Or.inl (early_exit st _ [P] _ (by simp))
                | ok ans =>
                  cases ans
                  · simp only [hk]
                    exact Or.inl (early_exit st _ [P] _ (by simp))
                  · refine Or.inr ⟨niu, v, P, rfl, hm, rfl, hk, ?_⟩
                    simp only [hk, PutState]
                    cases hput : w.PutStateErr niu.Id v with
                    | some e =>
                      exact Or.inl ⟨"unable to put Asset struct in statedb: " ++ e, by simp⟩
                    | none => exact Or.inr (by simp)

/-- Every run of `BurnTokens` either fails leaving the state untouched, or passes every check and
reaches the ledger delete, whose failure, the failure of the event sink, or success then decide
the outcome. -/
theorem BurnTokens_outcome (w : World) (id account : String) (amount : Nat) (st : State) :
    (∃ err : String, BurnTokens w id account amount st = (.error err, st))
    ∨ (∃ (b : Bytes) (r : NIU) (P : String),
        Stored w st id b r ∧ GetUserID w = .ok P ∧ P ∈ r.Account ∧ r.Status = statusCompleted
        ∧ ((∃ err : String, BurnTokens w id account amount st =
              (.error err, { st with trace := st.trace ++ [Call.DelState id] }))
          ∨ (∃ err : String, BurnTokens w id account amount st =
              (.error err, { store := Store.del st.store id, events := st.events,
                             trace := st.trace ++ [Call.DelState id, Call.SetEvent "DeleteNIU" b] }))
          ∨ BurnTokens w id account amount st =
              (.ok (), { store := Store.del st.store id,
                         events := st.events ++ [("DeleteNIU", b)],
                         trace := st.trace ++ [Call.DelState id, Call.SetEvent "DeleteNIU" b] }))) := by
  cases hg : GetState w id st with
  | error e =>
    simp only [BurnTokens, hg]
    exact Or.inl ⟨_, rfl⟩
  | ok ob =>
    cases ob with
    | none =>
      simp only [BurnTokens, hg]
      exact Or.inl ⟨_, rfl⟩
    | some b =>
      cases hu : w.Unmarshal b with
      | error e =>
        simp only [BurnTokens, hg, hu]
        exact Or.inl ⟨_, rfl⟩
      | ok r =>
        cases hP : GetUserID w with
        | error e =>
          simp only [BurnTokens, hg, hu, hP]
          exact Or.inl ⟨_, rfl⟩
        | ok P =>
          by_cases hmem : P ∈ r.Account
          · by_cases hs : r.Status = statusCompleted
            · refine Or.inr ⟨b, r, P, ⟨hg, hu⟩, rfl, hmem, hs, ?_⟩
              simp only [BurnTokens, hg, hu, hP, slicesContains, hmem, hs, DelStateWithoutKYC,
                DelState, decide_True, Bool.not_true, ne_eq, not_true_eq_false, if_false,
                Bool.false_eq_true]
              cases hdel : w.DelStateErr id with
              | some e =>
                exact Or.inl ⟨"unable to delete asset struct in state database: " ++ e, by simp⟩
              | none =>
                simp only [SetEvent]
                cases hev : w.SetEventErr "DeleteNIU" b with
                | some e =>
                  exact Or.inr (Or.inl ⟨"unable to set event DeleteNIU: " ++ e, by simp⟩)
                | none => exact Or.inr (Or.inr (by simp))
            · simp only [BurnTokens, hg, hu, hP, slicesContains, hmem, hs, decide_True,
                Bool.not_true, ne_eq, not_false_eq_true, if_true, if_false, Bool.false_eq_true]
              exact Or.inl ⟨_, rfl⟩
          · simp only [BurnTokens, hg, hu, hP, slicesContains, hmem, decide_False, Bool.not_false,
              if_true]
            exact Or.inl ⟨_, rfl⟩

theorem Stored_get_eq {w : World} {st : State} {id : String} {b : Bytes} {r : NIU}
    (h : Stored w st id b r) : Store.get st.store id = some b := by
  have hg := h.1
  unfold GetState at hg
  cases he : w.GetStateErr id with
  | some e => simp [he] at hg
  | none => simpa [he] using hg

theorem Stored_unique {w : World} {st : State} {id : String} {b b0 : Bytes} {r r0 : NIU}
    (h : Stored w st id b r) (h0 : Stored w st id b0 r0) : b0 = b ∧ r0 = r := by
  have e1 : b0 = b := by
    have := h.1.symm.trans h0.1
    simpa using this.symm
  subst e1
  have e2 := h.2.symm.trans h0.2
  exact ⟨rfl, by simpa using e2.symm⟩

/-- When a receiver is in the account list and it and all receivers before it are compliant, the
loop stops with the self-transfer error. -/
theorem checkReceivers_self (w : World) (account : List String) (pre : List String) (x : String)
    (post : List String) (st : State) (hpre : ∀ y ∈ pre, kycAnswer w y = .ok true)
    (hk : kycAnswer w x = .ok true) (hx : x ∈ account) :
    ∃ looked : List String, checkReceivers w account (pre ++ x :: post) st =
      (.error "transfer to self is not allowed",
        { st with trace := st.trace ++ looked.map kycCall }) := by
  induction pre generalizing st with
  | nil =>
    rw [List.nil_append, checkReceivers_cons, hk]
    simp only [hx, if_true]
    exact ⟨[x], rfl⟩
  | cons y more ih =>
    have hy := hpre y (List.mem_cons_self _ _)
    have hmore : ∀ z ∈ more, kycAnswer w z = .ok true :=
      fun z hz => hpre z (List.mem_cons_of_mem _ hz)
    rw [List.cons_append, checkReceivers_cons, hy]
    by_cases hyacc : y ∈ account
    · simp only [hyacc, if_true]
      exact ⟨[y], rfl⟩
    · simp only [hyacc, if_false]
      obtain ⟨looked, h⟩ := ih { st with trace := st.trace ++ [kycCall y] } hmore
      refine ⟨y :: looked, ?_⟩
      rw [h]
      simp

/-- A failure of `TransferNIU` before the gate leaves store, events and the writes of the trace
as they were. -/
theorem early_frame (st : State) (res : Except String Unit × State) (err : String)
    (looked : List String)
    (h : res = (.error err, { st with trace := st.trace ++ looked.map kycCall })) :
    (∃ e : String, res.1 = .error e) ∧ res.2.store = st.store ∧ res.2.events = st.events
      ∧ writes res.2.trace = writes st.trace := by
  subst h
  refine ⟨⟨err, rfl⟩, rfl, rfl, ?_⟩
  simp [writes_append, writes_map_kycCall]

/-- A failing check of `TransferNIU` means an error with store, events and writes untouched. -/
theorem transfer_check_frame (w : World) (senders receivers : List String)
    (id docType : String) (amount : Nat) (timeStamp : String) (st : State)
    (h : TransferCheckFails w receivers id st) :
    (∃ err : String,
        (TransferNIU w senders receivers id docType amount timeStamp st).1 = .error err)
    ∧ (TransferNIU w senders receivers id docType amount timeStamp st).2.store = st.store
    ∧ (TransferNIU w senders receivers id docType amount timeStamp st).2.events = st.events
    ∧ writes (TransferNIU w senders receivers id docType amount timeStamp st).2.trace
        = writes st.trace := by
  rcases TransferNIU_outcome w senders receivers id docType amount timeStamp st with
    ⟨err, looked, hres⟩ | ⟨b, r, v, P, hst, hall, _, hs, hP, hk, _⟩
  · exact early_frame st _ err looked hres
  · exfalso
    rcases h with h | ⟨b0, e, hg, hu⟩ | ⟨x, hx, hne⟩ | ⟨b0, r0, x, hst0, hx, hacc⟩
        | ⟨b0, r0, hst0, hne⟩ | hgate
    · have := hst.1.symm.trans h
      simp at this
    · have e1 := hst.1.symm.trans hg
      have e2 : b = b0 := by simpa using e1
      subst e2
      have := hst.2.symm.trans hu
      simp at this
    · exact hne (hall x hx).1
    · obtain ⟨_, rfl⟩ := Stored_unique hst hst0
      exact (hall x hx).2 hacc
    · obtain ⟨_, rfl⟩ := Stored_unique hst hst0
      exact hne hs
    · exact hgate P hP hk

end smartcontract

/-! ## The authorization gate -/

namespace kalpsdk

open smartcontract

/-- C1: for every key, value and calling principal `P` whose compliance lookup answers
"not compliant", `PutStateWithKYC` and `DelStateWithKYC` invoked as `P` each return the
`ComplianceRequired` error, having issued only the compliance lookup, and leave the store
exactly as it was (no put, no delete in the trace). -/
theorem C1_gate_rejects_non_compliant (w : World) (key : String) (value : Bytes) (P : String)
    (st : State) (hP : GetUserID w = .ok P) (hk : kycAnswer w P = .ok false) :
    PutStateWithKYC w key value st =
        (.error ComplianceRequired, { st with trace := st.trace ++ [kycCall P] })
    ∧ DelStateWithKYC w key st =
        (.error ComplianceRequired, { st with trace := st.trace ++ [kycCall P] })
    ∧ (PutStateWithKYC w key value st).2.store = st.store
    ∧ (DelStateWithKYC w key st).2.store = st.store
    ∧ writes (PutStateWithKYC w key value st).2.trace = writes st.trace
    ∧ writes (DelStateWithKYC w key st).2.trace = writes st.trace := by
  have hput : PutStateWithKYC w key value st =
      (.error ComplianceRequired, { st with trace := st.trace ++ [kycCall P] }) := by
    rw [PutStateWithKYC_eq, hP]
    simp only [hk]
  have hdel : DelStateWithKYC w key st =
      (.error ComplianceRequired, { st with trace := st.trace ++ [kycCall P] }) := by
    rw [DelStateWithKYC_eq, hP]
    simp only [hk]
  refine ⟨hput, hdel, ?_, ?_, ?_, ?_⟩
  · rw [hput]
  · rw [hdel]
  · rw [hput]
    simp [writes_append, writes_kycCall]
  · rw [hdel]
    simp [writes_append, writes_kycCall]

/-- C1, at a concrete input: bob, who is not KYCed, puts and deletes the key of asset A1. -/
theorem C1_gate_rejects_non_compliant_witness :
    GetUserID (fixture.world "bob" ["alice"]) = .ok "bob"
    ∧ kycAnswer (fixture.world "bob" ["alice"]) "bob" = .ok false
    ∧ PutStateWithKYC (fixture.world "bob" ["alice"]) "A1" "x" fixture.ledger =
        (.error ComplianceRequired,
          { fixture.ledger with trace := fixture.ledger.trace ++ [kycCall "bob"] })
    ∧ (DelStateWithKYC (fixture.world "bob" ["alice"]) "A1" fixture.ledger).2.store =
        fixture.ledger.store :=
  ⟨rfl, rfl,
    (C1_gate_rejects_non_compliant (fixture.world "bob" ["alice"]) "A1" "x" "bob" fixture.ledger
      rfl rfl).1,
    (C1_gate_rejects_non_compliant (fixture.world "bob" ["alice"]) "A1" "x" "bob" fixture.ledger
      rfl rfl).2.2.2.1⟩

end kalpsdk

/-! ## The asset lifecycle -/

namespace smartcontract

open kalpsdk

/-- C2, as stated, fails for `BurnTokens`: alice, who is not KYCed, burns the completed asset A1
that she holds; the call succeeds, the key is deleted from the store, and the trace holds the
delete and the event but no compliance lookup. -/
theorem C2_burn_deletes_without_lookup :
    GetUserID (fixture.world "alice" []) = .ok "alice"
    ∧ kycAnswer (fixture.world "alice" []) "alice" = .ok false
    ∧ Store.get fixture.ledger.store "A1" = some (fixture.render fixture.niuA1)
    ∧ BurnTokens (fixture.world "alice" []) "A1" "alice" 0 fixture.ledger =
        (.ok (), { store := [("B2", fixture.render fixture.niuB2)],
                   events := [("DeleteNIU", fixture.render fixture.niuA1)],
                   trace := [Call.DelState "A1",
                             Call.SetEvent "DeleteNIU" (fixture.render fixture.niuA1)] })
    ∧ Store.get (BurnTokens (fixture.world "alice" []) "A1" "alice" 0 fixture.ledger).2.store "A1"
        = none :=
  ⟨rfl, rfl, rfl, rfl, rfl⟩

/-- C2, amended: every put or delete made by `CreateNIU` or `TransferNIU` is compliance-gated.
For every initial state and every call of either, with `new` the calls the operation added to the
trace: if `new` holds a put or a delete, or the store changed, then the calling principal
resolves to some `P`, the compliance lookup for `P` answers "compliant", and every put or delete
of `new` comes after a lookup for `P` in `new`. `BurnTokens` issues no compliance lookup at all:
its delete goes through `DelStateWithoutKYC`. -/
theorem C2_create_and_transfer_gated (w : World) (data : String) (senders receivers : List String)
    (id docType : String) (amount : Nat) (timeStamp : String) (account : String) (st : State) :
    (∃ new : List Call, (CreateNIU w data st).2.trace = st.trace ++ new
      ∧ (((∃ c ∈ new, c.isMutation = true) ∨ (CreateNIU w data st).2.store ≠ st.store) →
          ∃ P : String, GetUserID w = .ok P ∧ kycAnswer w P = .ok true
            ∧ gatedTrace P new = true))
    ∧ (∃ new : List Call,
        (TransferNIU w senders receivers id docType amount timeStamp st).2.trace = st.trace ++ new
      ∧ (((∃ c ∈ new, c.isMutation = true)
            ∨ (TransferNIU w senders receivers id docType amount timeStamp st).2.store ≠ st.store) →
          ∃ P : String, GetUserID w = .ok P ∧ kycAnswer w P = .ok true
            ∧ gatedTrace P new = true))
    ∧ (∃ new : List Call, (BurnTokens w id account amount st).2.trace = st.trace ++ new
      ∧ ∀ userId : String, kycCall userId ∉ new) := by
  refine ⟨?_, ?_, ?_⟩
  · rcases CreateNIU_outcome w data st with ⟨err, looked, h⟩ | ⟨niu, v, P, _, _, hP, hk, h⟩
    · refine ⟨looked.map kycCall, by rw [h], ?_⟩
      rintro (⟨c, hc, hmut⟩ | hstore)
      · rw [isMutation_of_mem_map_kycCall looked c hc] at hmut
        exact absurd hmut (by decide)
      · rw [h] at hstore
        exact absurd rfl hstore
    · refine ⟨[kycCall P, Call.PutState niu.Id v], ?_, fun _ => ⟨P, hP, hk, by simp [gatedTrace]⟩⟩
      rcases h with ⟨err, h⟩ | h <;> rw [h]
  · rcases TransferNIU_outcome w senders receivers id docType amount timeStamp st with
      ⟨err, looked, h⟩ | ⟨b, r, v, P, _, _, _, _, hP, hk, h⟩
    · refine ⟨looked.map kycCall, by rw [h], ?_⟩
      rintro (⟨c, hc, hmut⟩ | hstore)
      · rw [isMutation_of_mem_map_kycCall looked c hc] at hmut
        exact absurd hmut (by decide)
      · rw [h] at hstore
        exact absurd rfl hstore
    · rcases h with ⟨err, h⟩ | ⟨err, h⟩ | h
      · refine ⟨receivers.map kycCall ++ [kycCall P, Call.PutState id v], ?_,
          fun _ => ⟨P, hP, hk, gatedTrace_map_append P receivers _ (by simp [gatedTrace])⟩⟩
        rw [h, List.append_assoc]
      · refine ⟨receivers.map kycCall ++
            [kycCall P, Call.PutState id v, Call.SetEvent "TransferNIU" v], ?_,
          fun _ => ⟨P, hP, hk, gatedTrace_map_append P receivers _ (by simp [gatedTrace])⟩⟩
        rw [h, List.append_assoc]
      · refine ⟨receivers.map kycCall ++
            [kycCall P, Call.PutState id v, Call.SetEvent "TransferNIU" v], ?_,
          fun _ => ⟨P, hP, hk, gatedTrace_map_append P receivers _ (by simp [gatedTrace])⟩⟩
        rw [h, List.append_assoc]
  · rcases BurnTokens_outcome w id account amount st with ⟨err, h⟩ | ⟨b, r, P, _, _, _, _, h⟩
    · exact ⟨[], by rw [h]; simp, fun _ hmem => absurd hmem (List.not_mem_nil _)⟩
    · rcases h with ⟨err, h⟩ | ⟨err, h⟩ | h
      · exact ⟨[Call.DelState id], by rw [h], fun u hmem => by simp [kycCall] at hmem⟩
      · exact ⟨[Call.DelState id, Call.SetEvent "DeleteNIU" b], by rw [h],
          fun u hmem => by simp [kycCall] at hmem⟩
      · exact ⟨[Call.DelState id, Call.SetEvent "DeleteNIU" b], by rw [h],
          fun u hmem => by simp [kycCall] at hmem⟩

/-- C2 amended, at a concrete input: alice, who is KYCed, transfers A1 to carol; the put of the
new record comes after the compliance lookup for alice. -/
theorem C2_create_and_transfer_gated_witness :
    ∃ new : List Call,
      (TransferNIU (fixture.world "alice" ["alice", "carol"]) ["alice"] ["carol"] "A1" "ASSET-X" 0 ""
          fixture.ledger).2.trace = fixture.ledger.trace ++ new
      ∧ (((∃ c ∈ new, c.isMutation = true)
            ∨ (TransferNIU (fixture.world "alice" ["alice", "carol"]) ["alice"] ["carol"] "A1"
                "ASSET-X" 0 "" fixture.ledger).2.store ≠ fixture.ledger.store) →
          ∃ P : String, GetUserID (fixture.world "alice" ["alice", "carol"]) = .ok P
            ∧ kycAnswer (fixture.world "alice" ["alice", "carol"]) P = .ok true
            ∧ gatedTrace P new = true) :=
  (C2_create_and_transfer_gated (fixture.world "alice" ["alice", "carol"]) "" ["alice"] ["carol"]
    "A1" "ASSET-X" 0 "" "alice" fixture.ledger).2.1

/-- C3: `TransferNIU` performs no partial mutation. For every initial state and argument list, if
any of its checks fails (record absent or undecodable, a receiver's compliance lookup errors or
answers false, a receiver already in the account list, status not COMPLETED, or the caller's
compliance gate on the write rejecting), the call returns an error, the store is unchanged, no
event is emitted, and no put or delete was issued. -/
theorem C3_transfer_aborts_before_write (w : World) (senders receivers : List String)
    (id docType : String) (amount : Nat) (timeStamp : String) (st : State)
    (h : TransferCheckFails w receivers id st) :
    (∃ err : String,
        (TransferNIU w senders receivers id docType amount timeStamp st).1 = .error err)
    ∧ (TransferNIU w senders receivers id docType amount timeStamp st).2.store = st.store
    ∧ (TransferNIU w senders receivers id docType amount timeStamp st).2.events = st.events
    ∧ writes (TransferNIU w senders receivers id docType amount timeStamp st).2.trace
        = writes st.trace :=
  transfer_check_frame w senders receivers id docType amount timeStamp st h

/-- C3, at a concrete input: a transfer of A1 to dave, who is not KYCed. -/
theorem C3_transfer_aborts_before_write_witness :
    TransferCheckFails (fixture.world "alice" ["alice"]) ["dave"] "A1" fixture.ledger
    ∧ (∃ err : String,
        (TransferNIU (fixture.world "alice" ["alice"]) ["alice"] ["dave"] "A1" "ASSET-X" 0 ""
          fixture.ledger).1 = .error err)
    ∧ (TransferNIU (fixture.world "alice" ["alice"]) ["alice"] ["dave"] "A1" "ASSET-X" 0 ""
          fixture.ledger).2.store = fixture.ledger.store :=
  have h : TransferCheckFails (fixture.world "alice" ["alice"]) ["dave"] "A1" fixture.ledger :=
    Or.inr (Or.inr (Or.inl ⟨"dave", List.mem_singleton.mpr rfl, by decide⟩))
  ⟨h,
    (C3_transfer_aborts_before_write (fixture.world "alice" ["alice"]) ["alice"] ["dave"] "A1"
      "ASSET-X" 0 "" fixture.ledger h).1,
    (C3_transfer_aborts_before_write (fixture.world "alice" ["alice"]) ["alice"] ["dave"] "A1"
      "ASSET-X" 0 "" fixture.ledger h).2.1⟩

/-- C4: `TransferNIU` success postcondition. For every record `r` stored at `id` with status
COMPLETED, every receivers list whose members are all compliant and none of which is in
`r.Account`, and a compliant caller `P`, with `v` the serialization of `r` with its account
replaced by exactly `receivers` (the ledger accepting the write and the event): the call succeeds,
the store afterwards holds `v` at `id`, and exactly one event is emitted, named "TransferNIU",
whose payload is `v`, the value written to the store. -/
theorem C4_transfer_success (w : World) (senders receivers : List String) (id docType : String)
    (amount : Nat) (timeStamp : String) (st : State) (b : Bytes) (r : NIU) (v : Bytes) (P : String)
    (hst : Stored w st id b r) (hs : r.Status = statusCompleted)
    (hrecv : ∀ x ∈ receivers, kycAnswer w x = .ok true)
    (hnot : ∀ x ∈ receivers, x ∉ r.Account)
    (hP : GetUserID w = .ok P) (hk : kycAnswer w P = .ok true)
    (hm : w.Marshal { r with Account := receivers } = .ok v)
    (hput : w.PutStateErr id v = none) (hev : w.SetEventErr "TransferNIU" v = none) :
    (TransferNIU w senders receivers id docType amount timeStamp st).1 = .ok ()
    ∧ Store.get (TransferNIU w senders receivers id docType amount timeStamp st).2.store id
        = some v
    ∧ (TransferNIU w senders receivers id docType amount timeStamp st).2.events
        = st.events ++ [("TransferNIU", v)]
    ∧ writes (TransferNIU w senders receivers id docType amount timeStamp st).2.trace
        = writes st.trace ++ [Call.PutState id v] := by
  have hall : ∀ x ∈ receivers, kycAnswer w x = .ok true ∧ x ∉ r.Account :=
    fun x hx => ⟨hrecv x hx, hnot x hx⟩
  have hres : TransferNIU w senders receivers id docType amount timeStamp st =
      (.ok (), { store := Store.put st.store id v,
                 events := st.events ++ [("TransferNIU", v)],
                 trace := st.trace ++ receivers.map kycCall ++
                   [kycCall P, Call.PutState id v, Call.SetEvent "TransferNIU" v] }) := by
    have hm0 := hm
    rw [hs] at hm0
    simp only [TransferNIU, hst.1, hst.2, checkReceivers_pass w r.Account receivers st hall, hs,
      hm0, ne_eq, not_true_eq_false, if_false]
    rw [PutStateWithKYC_eq, hP]
    simp only [hk, PutState, hput, SetEvent, hev]
    simp
  rw [hres]
  refine ⟨rfl, Store.get_put_same _ _ _, rfl, ?_⟩
  simp [writes_append, writes_map_kycCall, writes, Call.isMutation, kycCall]

/-- C4, at the scenario of the spec: alice transfers the completed asset A1 to carol. -/
theorem C4_transfer_success_witness :
    Stored (fixture.world "alice" ["alice", "carol"]) fixture.ledger "A1"
        (fixture.render fixture.niuA1) fixture.niuA1
    ∧ (TransferNIU (fixture.world "alice" ["alice", "carol"]) ["alice"] ["carol"] "A1" "ASSET-X"
          0 "" fixture.ledger).1 = .ok ()
    ∧ Store.get (TransferNIU (fixture.world "alice" ["alice", "carol"]) ["alice"] ["carol"] "A1"
          "ASSET-X" 0 "" fixture.ledger).2.store "A1" = some (fixture.render fixture.niuA1carol)
    ∧ (TransferNIU (fixture.world "alice" ["alice", "carol"]) ["alice"] ["carol"] "A1" "ASSET-X"
          0 "" fixture.ledger).2.events
        = fixture.ledger.events ++ [("TransferNIU", fixture.render fixture.niuA1carol)] :=
  have hst : Stored (fixture.world "alice" ["alice", "carol"]) fixture.ledger "A1"
      (fixture.render fixture.niuA1) fixture.niuA1 := ⟨rfl, rfl⟩
  have h := C4_transfer_success (fixture.world "alice" ["alice", "carol"]) ["alice"] ["carol"]
    "A1" "ASSET-X" 0 "" fixture.ledger (fixture.render fixture.niuA1) fixture.niuA1
    (fixture.render fixture.niuA1carol) "alice" hst rfl
    (fun x hx => by rw [List.mem_singleton.mp hx]; rfl)
    (fun x hx => by rw [List.mem_singleton.mp hx]; decide)
    rfl rfl rfl rfl rfl
  ⟨hst, h.1, h.2.1, h.2.2.1⟩

/-- C5, as stated, fails: alice holds A1 and is not KYCed; a transfer of A1 to alice herself fails
with the error of the compliance check, which the loop makes before the membership check, and
not with the self-transfer error. -/
theorem C5_non_compliant_self_receiver :
    Stored (fixture.world "carol" ["carol"]) fixture.ledger "A1"
        (fixture.render fixture.niuA1) fixture.niuA1
    ∧ "alice" ∈ fixture.niuA1.Account
    ∧ (TransferNIU (fixture.world "carol" ["carol"]) ["alice"] ["alice"] "A1" "ASSET-X" 0 ""
          fixture.ledger).1 = .error "user alice is not KYCed"
    ∧ (TransferNIU (fixture.world "carol" ["carol"]) ["alice"] ["alice"] "A1" "ASSET-X" 0 ""
          fixture.ledger).1 ≠ .error "transfer to self is not allowed" :=
  ⟨⟨rfl, rfl⟩, by decide, rfl, by decide⟩

/-- C5, amended: for every stored record and every receivers list that contains a principal `x`
already present in the record's account list, `TransferNIU` fails and performs no write (store
and events unchanged, no put or delete issued); the error is the self-transfer error
"transfer to self is not allowed" when `x` and every receiver listed before it are compliant. -/
theorem C5_self_transfer_rejected (w : World) (senders pre : List String) (x : String)
    (post : List String) (id docType : String) (amount : Nat) (timeStamp : String) (st : State)
    (b : Bytes) (r : NIU) (hst : Stored w st id b r) (hx : x ∈ r.Account) :
    (∃ err : String,
        (TransferNIU w senders (pre ++ x :: post) id docType amount timeStamp st).1 = .error err)
    ∧ (TransferNIU w senders (pre ++ x :: post) id docType amount timeStamp st).2.store = st.store
    ∧ (TransferNIU w senders (pre ++ x :: post) id docType amount timeStamp st).2.events
        = st.events
    ∧ writes (TransferNIU w senders (pre ++ x :: post) id docType amount timeStamp st).2.trace
        = writes st.trace
    ∧ ((∀ y ∈ pre, kycAnswer w y = .ok true) → kycAnswer w x = .ok true →
        (TransferNIU w senders (pre ++ x :: post) id docType amount timeStamp st).1
          = .error "transfer to self is not allowed") := by
  have hfail : TransferCheckFails w (pre ++ x :: post) id st :=
    Or.inr (Or.inr (Or.inr (Or.inl ⟨b, r, x, hst, by simp, hx⟩)))
  rcases TransferNIU_outcome w senders (pre ++ x :: post) id docType amount timeStamp st with
    ⟨err, looked, hres⟩ | ⟨b0, r0, v, P, hst0, hall, _⟩
  · obtain ⟨h1, h2, h3, h4⟩ := early_frame st _ err looked hres
    refine ⟨h1, h2, h3, h4, ?_⟩
    intro hpre hk
    obtain ⟨looked0, hloop⟩ := checkReceivers_self w r.Account pre x post st hpre hk hx
    simp only [TransferNIU, hst.1, hst.2, hloop]
  · exfalso
    obtain ⟨_, rfl⟩ := Stored_unique hst0 hst
    exact (hall x (by simp)).2 hx

/-- C5 amended, at a concrete input: alice, who holds A1 and is KYCed, is named as receiver. -/
theorem C5_self_transfer_rejected_witness :
    Stored (fixture.world "alice" ["alice"]) fixture.ledger "A1"
        (fixture.render fixture.niuA1) fixture.niuA1
    ∧ "alice" ∈ fixture.niuA1.Account
    ∧ (TransferNIU (fixture.world "alice" ["alice"]) ["alice"] ([] ++ "alice" :: []) "A1"
          "ASSET-X" 0 "" fixture.ledger).1 = .error "transfer to self is not allowed" :=
  have hst : Stored (fixture.world "alice" ["alice"]) fixture.ledger "A1"
      (fixture.render fixture.niuA1) fixture.niuA1 := ⟨rfl, rfl⟩
  ⟨hst, by decide,
    (C5_self_transfer_rejected (fixture.world "alice" ["alice"]) ["alice"] [] "alice" [] "A1"
      "ASSET-X" 0 "" fixture.ledger (fixture.render fixture.niuA1) fixture.niuA1 hst
      (by decide)).2.2.2.2 (fun y hy => absurd hy (List.not_mem_nil y)) rfl⟩

/-- C6: for every stored record and every receivers list in which some receiver's compliance
lookup answers "not compliant", `TransferNIU` returns an error and never succeeds; and if the
first receiver that fails any check (all receivers before it being compliant and outside the
account list) fails it by being non-compliant, the error is "user <r> is not KYCed", naming that
receiver. -/
theorem C6_non_compliant_receiver (w : World) (senders receivers : List String)
    (id docType : String) (amount : Nat) (timeStamp : String) (st : State) (b : Bytes) (r : NIU)
    (x : String) (hst : Stored w st id b r) (hx : x ∈ receivers)
    (hk : kycAnswer w x = .ok false) :
    (∃ err : String,
        (TransferNIU w senders receivers id docType amount timeStamp st).1 = .error err)
    ∧ (TransferNIU w senders receivers id docType amount timeStamp st).1 ≠ .ok ()
    ∧ (∀ (pre : List String) (y : String) (post : List String),
        receivers = pre ++ y :: post →
        (∀ z ∈ pre, kycAnswer w z = .ok true ∧ z ∉ r.Account) →
        kycAnswer w y = .ok false →
        (TransferNIU w senders receivers id docType amount timeStamp st).1
          = .error ("user " ++ y ++ " is not KYCed")) := by
  have hfail : TransferCheckFails w receivers id st :=
    Or.inr (Or.inr (Or.inl ⟨x, hx, by rw [hk]; simp⟩))
  obtain ⟨⟨err, herr⟩, _⟩ :=
    transfer_check_frame w senders receivers id docType amount timeStamp st hfail
  refine ⟨⟨err, herr⟩, by rw [herr]; simp, ?_⟩
  intro pre y post hsplit hpre hy
  subst hsplit
  simp only [TransferNIU, hst.1, hst.2, checkReceivers_append w r.Account pre (y :: post) st hpre,
    checkReceivers_cons, hy]

/-- C6, at a concrete input: carol is KYCed, dave is not; a transfer of A1 to carol and dave. -/
theorem C6_non_compliant_receiver_witness :
    Stored (fixture.world "alice" ["alice", "carol"]) fixture.ledger "A1"
        (fixture.render fixture.niuA1) fixture.niuA1
    ∧ kycAnswer (fixture.world "alice" ["alice", "carol"]) "dave" = .ok false
    ∧ (TransferNIU (fixture.world "alice" ["alice", "carol"]) ["alice"] ["carol", "dave"] "A1"
          "ASSET-X" 0 "" fixture.ledger).1 = .error ("user " ++ "dave" ++ " is not KYCed") :=
  have hst : Stored (fixture.world "alice" ["alice", "carol"]) fixture.ledger "A1"
      (fixture.render fixture.niuA1) fixture.niuA1 := ⟨rfl, rfl⟩
  ⟨hst, rfl,
    (C6_non_compliant_receiver (fixture.world "alice" ["alice", "carol"]) ["alice"]
      ["carol", "dave"] "A1" "ASSET-X" 0 "" fixture.ledger (fixture.render fixture.niuA1)
      fixture.niuA1 "dave" hst (by decide) rfl).2.2 ["carol"] "dave" [] rfl
      (fun z hz => by rw [List.mem_singleton.mp hz]; exact ⟨rfl, by decide⟩) rfl⟩

/-- C7: transfer and burn are permitted only on COMPLETED records. For every initial state and
arguments, if `TransferNIU` or `BurnTokens` returns success, then before the call the store held
at `id` bytes that decode to a record whose status is exactly "COMPLETED". -/
theorem C7_success_only_on_completed (w : World) (senders receivers : List String)
    (id docType : String) (amount : Nat) (timeStamp : String) (account : String) (st : State) :
    ((TransferNIU w senders receivers id docType amount timeStamp st).1 = .ok () →
      ∃ (b : Bytes) (r : NIU), Store.get st.store id = some b ∧ w.Unmarshal b = .ok r
        ∧ r.Status = "COMPLETED")
    ∧ ((BurnTokens w id account amount st).1 = .ok () →
      ∃ (b : Bytes) (r : NIU), Store.get st.store id = some b ∧ w.Unmarshal b = .ok r
        ∧ r.Status = "COMPLETED") := by
  constructor
  · intro hok
    rcases TransferNIU_outcome w senders receivers id docType amount timeStamp st with
      ⟨err, looked, hres⟩ | ⟨b, r, v, P, hst, _, _, hs, _⟩
    · rw [hres] at hok
      simp at hok
    · exact ⟨b, r, Stored_get_eq hst, hst.2, hs⟩
  · intro hok
    rcases BurnTokens_outcome w id account amount st with ⟨err, hres⟩ | ⟨b, r, P, hst, _, _, hs, _⟩
    · rw [hres] at hok
      simp at hok
    · exact ⟨b, r, Stored_get_eq hst, hst.2, hs⟩

/-- C7, at concrete inputs: the successful transfer of A1 to carol, and the successful burn of A1
by alice. -/
theorem C7_success_only_on_completed_witness :
    (∃ (b : Bytes) (r : NIU), Store.get fixture.ledger.store "A1" = some b
        ∧ (fixture.world "alice" ["alice", "carol"]).Unmarshal b = .ok r ∧ r.Status = "COMPLETED")
    ∧ (∃ (b : Bytes) (r : NIU), Store.get fixture.ledger.store "A1" = some b
        ∧ (fixture.world "alice" ["alice", "carol"]).Unmarshal b = .ok r
        ∧ r.Status = "COMPLETED") :=
  ⟨(C7_success_only_on_completed (fixture.world "alice" ["alice", "carol"]) ["alice"] ["carol"]
      "A1" "ASSET-X" 0 "" "alice" fixture.ledger).1 rfl,
    (C7_success_only_on_completed (fixture.world "alice" ["alice", "carol"]) ["alice"] ["carol"]
      "A1" "ASSET-X" 0 "" "alice" fixture.ledger).2 rfl⟩

/-- C8, as stated, fails: bob, who does not hold the asset B2 in progress, burns it; the call
fails with the error of the ownership check, which comes before the status check, and not with
the invalid-state error. -/
theorem C8_non_owner_burn_in_progress :
    Stored (fixture.world "bob" ["bob"]) fixture.ledger "B2"
        (fixture.render fixture.niuB2) fixture.niuB2
    ∧ fixture.niuB2.Status = statusInProgress
    ∧ BurnTokens (fixture.world "bob" ["bob"]) "B2" "alice" 0 fixture.ledger =
        (.error "only the asset owner can initiate a burn", fixture.ledger)
    ∧ (BurnTokens (fixture.world "bob" ["bob"]) "B2" "alice" 0 fixture.ledger).1 ≠
        .error "the asset is not applicable for burning tokens" :=
  ⟨⟨rfl, rfl⟩, rfl, rfl, by decide⟩

/-- C8, amended: for every stored record whose status is INPROGRESS and every caller and
arguments, `BurnTokens` fails and leaves the state as it was, so the record is still present,
unchanged, in the store afterwards; the error is the invalid-state error
"the asset is not applicable for burning tokens" when the caller is in the record's account
list. -/
theorem C8_burn_in_progress_rejected (w : World) (id account : String) (amount : Nat)
    (st : State) (b : Bytes) (r : NIU) (hst : Stored w st id b r)
    (hs : r.Status = statusInProgress) :
    (∃ err : String, BurnTokens w id account amount st = (.error err, st))
    ∧ Store.get (BurnTokens w id account amount st).2.store id = some b
    ∧ (∀ P : String, GetUserID w = .ok P → P ∈ r.Account →
        (BurnTokens w id account amount st).1
          = .error "the asset is not applicable for burning tokens") := by
  have hne : r.Status ≠ statusCompleted := by
    rw [hs]
    decide
  have hfail : ∃ err : String, BurnTokens w id account amount st = (.error err, st) := by
    rcases BurnTokens_outcome w id account amount st with h | ⟨b0, r0, P, hst0, _, _, hs0, _⟩
    · exact h
    · obtain ⟨_, rfl⟩ := Stored_unique hst hst0
      exact absurd hs0 hne
  refine ⟨hfail, ?_, ?_⟩
  · obtain ⟨err, h⟩ := hfail
    rw [h]
    exact Stored_get_eq hst
  · intro P hP hmem
    simp only [BurnTokens, hst.1, hst.2, hP, slicesContains, hmem, decide_True, Bool.not_true,
      Bool.false_eq_true, if_false, ne_eq, hne, not_false_eq_true, if_true]

/-- C8 amended, at a concrete input: alice burns the asset B2 in progress, which she holds. -/
theorem C8_burn_in_progress_rejected_witness :
    Stored (fixture.world "alice" ["alice"]) fixture.ledger "B2"
        (fixture.render fixture.niuB2) fixture.niuB2
    ∧ fixture.niuB2.Status = statusInProgress
    ∧ (BurnTokens (fixture.world "alice" ["alice"]) "B2" "alice" 0 fixture.ledger).1
        = .error "the asset is not applicable for burning tokens"
    ∧ Store.get (BurnTokens (fixture.world "alice" ["alice"]) "B2" "alice" 0
        fixture.ledger).2.store "B2" = some (fixture.render fixture.niuB2) :=
  have hst : Stored (fixture.world "alice" ["alice"]) fixture.ledger "B2"
      (fixture.render fixture.niuB2) fixture.niuB2 := ⟨rfl, rfl⟩
  ⟨hst, rfl,
    (C8_burn_in_progress_rejected (fixture.world "alice" ["alice"]) "B2" "alice" 0 fixture.ledger
      (fixture.render fixture.niuB2) fixture.niuB2 hst rfl).2.2 "alice" rfl (by decide),
    (C8_burn_in_progress_rejected (fixture.world "alice" ["alice"]) "B2" "alice" 0 fixture.ledger
      (fixture.render fixture.niuB2) fixture.niuB2 hst rfl).2.1⟩

/-- C9: for every stored record and every calling principal that is not a member of the stored
record's account list, `BurnTokens` fails with "only the asset owner can initiate a burn" and
leaves the whole state as it was (nothing deleted, no event emitted, no call issued), whatever
the value of its account and amount arguments. -/
theorem C9_burn_by_non_owner_rejected (w : World) (id account : String) (amount : Nat)
    (st : State) (b : Bytes) (r : NIU) (P : String) (hst : Stored w st id b r)
    (hP : GetUserID w = .ok P) (hmem : P ∉ r.Account) :
    BurnTokens w id account amount st = (.error "only the asset owner can initiate a burn", st)
    ∧ (BurnTokens w id account amount st).2.store = st.store
    ∧ (BurnTokens w id account amount st).2.events = st.events
    ∧ (BurnTokens w id account amount st).2.trace = st.trace := by
  have h : BurnTokens w id account amount st =
      (.error "only the asset owner can initiate a burn", st) := by
    simp only [BurnTokens, hst.1, hst.2, hP, slicesContains, hmem, decide_False, Bool.not_false,
      if_true]
  rw [h]
  exact ⟨rfl, rfl, rfl, rfl⟩

/-- C9, at a concrete input: bob burns the completed asset A1 held by alice, naming alice as the
account. -/
theorem C9_burn_by_non_owner_rejected_witness :
    Stored (fixture.world "bob" ["bob"]) fixture.ledger "A1"
        (fixture.render fixture.niuA1) fixture.niuA1
    ∧ GetUserID (fixture.world "bob" ["bob"]) = .ok "bob"
    ∧ "bob" ∉ fixture.niuA1.Account
    ∧ BurnTokens (fixture.world "bob" ["bob"]) "A1" "alice" 7 fixture.ledger =
        (.error "only the asset owner can initiate a burn", fixture.ledger) :=
  have hst : Stored (fixture.world "bob" ["bob"]) fixture.ledger "A1"
      (fixture.render fixture.niuA1) fixture.niuA1 := ⟨rfl, rfl⟩
  ⟨hst, rfl, by decide,
    (C9_burn_by_non_owner_rejected (fixture.world "bob" ["bob"]) "A1" "alice" 7 fixture.ledger
      (fixture.render fixture.niuA1) fixture.niuA1 "bob" hst rfl (by decide)).1⟩

/-- C10: `BurnTokens` success postcondition. For every record stored at `id` with status
COMPLETED and a caller that is in its account list (the ledger accepting the delete and the
event): the call succeeds, the key `id` is absent from the store afterwards, every other key is
unchanged, and exactly one event is emitted, named "DeleteNIU", whose payload is the bytes that
were stored at `id` before the call (the bytes read, not a re-serialization). -/
theorem C10_burn_success (w : World) (id account : String) (amount : Nat) (st : State)
    (b : Bytes) (r : NIU) (P : String) (hst : Stored w st id b r)
    (hs : r.Status = statusCompleted) (hP : GetUserID w = .ok P) (hmem : P ∈ r.Account)
    (hdel : w.DelStateErr id = none) (hev : w.SetEventErr "DeleteNIU" b = none) :
    (BurnTokens w id account amount st).1 = .ok ()
    ∧ Store.get (BurnTokens w id account amount st).2.store id = none
    ∧ (∀ k : String, k ≠ id →
        Store.get (BurnTokens w id account amount st).2.store k = Store.get st.store k)
    ∧ (BurnTokens w id account amount st).2.events = st.events ++ [("DeleteNIU", b)]
    ∧ Store.get st.store id = some b := by
  have h : BurnTokens w id account amount st =
      (.ok (), { store := Store.del st.store id,
                 events := st.events ++ [("DeleteNIU", b)],
                 trace := st.trace ++ [Call.DelState id, Call.SetEvent "DeleteNIU" b] }) := by
    simp only [BurnTokens, hst.1, hst.2, hP, slicesContains, hmem, hs, DelStateWithoutKYC,
      DelState, decide_True, Bool.not_true, ne_eq, not_true_eq_false, if_false,
      Bool.false_eq_true, hdel, SetEvent, hev]
    simp
  rw [h]
  exact ⟨rfl, Store.get_del_same _ _, fun k hk => Store.get_del_other _ _ _ hk, rfl, Stored_get_eq hst⟩

/-- C10, at the scenario of the spec: after the transfer of A1 to carol, carol burns it. -/
theorem C10_burn_success_witness :
    Stored (fixture.world "carol" ["carol"]) fixture.transferred "A1"
        (fixture.render fixture.niuA1carol) fixture.niuA1carol
    ∧ (BurnTokens (fixture.world "carol" ["carol"]) "A1" "carol" 0 fixture.transferred).1 = .ok ()
    ∧ Store.get (BurnTokens (fixture.world "carol" ["carol"]) "A1" "carol" 0
        fixture.transferred).2.store "A1" = none
    ∧ (BurnTokens (fixture.world "carol" ["carol"]) "A1" "carol" 0 fixture.transferred).2.events
        = fixture.transferred.events ++ [("DeleteNIU", fixture.render fixture.niuA1carol)] :=
  have hst : Stored (fixture.world "carol" ["carol"]) fixture.transferred "A1"
      (fixture.render fixture.niuA1carol) fixture.niuA1carol := ⟨rfl, rfl⟩
  have h := C10_burn_success (fixture.world "carol" ["carol"]) "A1" "carol" 0 fixture.transferred
    (fixture.render fixture.niuA1carol) fixture.niuA1carol "carol" hst rfl rfl (by decide) rfl rfl
  ⟨hst, h.1, h.2.1, h.2.2.2.1⟩

end smartcontract

/-! ## Reading, creating, and the lifecycle invariants -/

namespace smartcontract

open kalpsdk

/-- C11: for every record `r` stored (and decodable) at `id` and every calling principal `p` whose
identity resolves, `ReadNIU(id)` returns `r` if and only if `p` is a member of `r.Account`;
otherwise it fails with the not-authorized error "not a valid owner ..." and returns no
record. -/
theorem C11_read_iff_member (w : World) (id : String) (st : State) (b : Bytes) (r : NIU)
    (p : String) (hst : Stored w st id b r) (hp : GetUserID w = .ok p) :
    (ReadNIU w id st = .ok r ↔ p ∈ r.Account)
    ∧ (p ∈ r.Account → ReadNIU w id st = .ok r)
    ∧ (p ∉ r.Account →
        ReadNIU w id st = .error ("not a valid owner " ++ formatStrings r.Account ++
          " for the NIU asset with ID " ++ id))
    ∧ (p ∉ r.Account → ∀ r0 : NIU, ReadNIU w id st ≠ .ok r0) := by
  have hin : p ∈ r.Account → ReadNIU w id st = .ok r := by
    intro hmem
    simp only [ReadNIU, hst.1, hst.2, hp, slicesContains, hmem, decide_True, Bool.not_true,
      Bool.false_eq_true, if_false]
  have hout : p ∉ r.Account →
      ReadNIU w id st = .error ("not a valid owner " ++ formatStrings r.Account ++
        " for the NIU asset with ID " ++ id) := by
    intro hmem
    simp only [ReadNIU, hst.1, hst.2, hp, slicesContains, hmem, decide_False, Bool.not_false,
      if_true]
  refine ⟨⟨?_, hin⟩, hin, hout, ?_⟩
  · intro hok
    by_contra hmem
    rw [hout hmem] at hok
    simp at hok
  · intro hmem r0 hok
    rw [hout hmem] at hok
    simp at hok

/-- C11, at the scenario of the spec: alice reads A1, which she holds. -/
theorem C11_read_iff_member_witness :
    Stored (fixture.world "alice" []) fixture.minted "A1"
        (fixture.render fixture.niuA1) fixture.niuA1
    ∧ GetUserID (fixture.world "alice" []) = .ok "alice"
    ∧ ReadNIU (fixture.world "alice" []) "A1" fixture.minted = .ok fixture.niuA1 :=
  have hst : Stored (fixture.world "alice" []) fixture.minted "A1"
      (fixture.render fixture.niuA1) fixture.niuA1 := ⟨rfl, rfl⟩
  ⟨hst, rfl,
    (C11_read_iff_member (fixture.world "alice" []) "A1" fixture.minted
      (fixture.render fixture.niuA1) fixture.niuA1 "alice" hst rfl).2.1 (by decide)⟩

/-- C12: for every `id` at which the store holds no value (the read of `id` finding nothing),
`ReadNIU`, `TransferNIU` and `BurnTokens` each fail with the not-found error for that `id`,
whatever the caller, the other arguments and the compliance answers, and leave the whole state
as it was: no compliance lookup, no write, no delete, no event. -/
theorem C12_absent_is_not_found (w : World) (senders receivers : List String)
    (id docType : String) (amount : Nat) (timeStamp : String) (account : String) (st : State)
    (habsent : Store.get st.store id = none) (hread : w.GetStateErr id = none) :
    ReadNIU w id st = .error ("the NIU asset with ID " ++ id ++ " does not exist")
    ∧ TransferNIU w senders receivers id docType amount timeStamp st =
        (.error ("the Asset " ++ id ++ " does not exist"), st)
    ∧ BurnTokens w id account amount st = (.error ("the asset " ++ id ++ " does not exist"), st)
    ∧ (TransferNIU w senders receivers id docType amount timeStamp st).2.trace = st.trace
    ∧ (BurnTokens w id account amount st).2.trace = st.trace := by
  have hg : GetState w id st = .ok none := by
    simp only [GetState, hread, habsent]
  have ht : TransferNIU w senders receivers id docType amount timeStamp st =
      (.error ("the Asset " ++ id ++ " does not exist"), st) := by
    simp only [TransferNIU, hg]
  have hb : BurnTokens w id account amount st =
      (.error ("the asset " ++ id ++ " does not exist"), st) := by
    simp only [BurnTokens, hg]
  refine ⟨?_, ht, hb, by rw [ht], by rw [hb]⟩
  simp only [ReadNIU, hg]

/-- C12, at a concrete input: the key Z9 holds nothing. -/
theorem C12_absent_is_not_found_witness :
    Store.get fixture.ledger.store "Z9" = none
    ∧ ReadNIU (fixture.world "alice" ["alice"]) "Z9" fixture.ledger =
        .error ("the NIU asset with ID " ++ "Z9" ++ " does not exist")
    ∧ TransferNIU (fixture.world "alice" ["alice"]) ["alice"] ["carol"] "Z9" "ASSET-X" 0 ""
        fixture.ledger = (.error ("the Asset " ++ "Z9" ++ " does not exist"), fixture.ledger)
    ∧ BurnTokens (fixture.world "alice" ["alice"]) "Z9" "alice" 0 fixture.ledger =
        (.error ("the asset " ++ "Z9" ++ " does not exist"), fixture.ledger) :=
  have h := C12_absent_is_not_found (fixture.world "alice" ["alice"]) ["alice"] ["carol"] "Z9"
    "ASSET-X" 0 "" "alice" fixture.ledger rfl rfl
  ⟨rfl, h.1, h.2.1, h.2.2.1⟩

/-- C13: for every input that parses to a record whose assetDigest is the empty string or whose
status is neither "INPROGRESS" nor "COMPLETED", `CreateNIU` fails with the validation error of
that field and leaves the whole state as it was, whatever `ValidateCreateTokenTransaction` and
`PutStateWithKYC` would answer (neither is reached). Conversely the two field checks accept every
input with non-empty assetDigest and status "INPROGRESS" or "COMPLETED": the call goes on to
`ValidateCreateTokenTransaction`, whose error it returns unchanged, and after it to the
serialization and to `PutStateWithKYC`. -/
theorem C13_create_field_checks (w : World) (data : String) (st : State) (r : NIU)
    (hr : w.Unmarshal data = .ok r) :
    (r.AssetDigest = "" → CreateNIU w data st = (.error "assetDigest can not be null", st))
    ∧ (r.AssetDigest ≠ "" → r.Status ≠ "INPROGRESS" → r.Status ≠ "COMPLETED" →
        CreateNIU w data st = (.error "not a valid Status", st))
    ∧ (r.AssetDigest ≠ "" → (r.Status = "INPROGRESS" ∨ r.Status = "COMPLETED") →
        (∀ err : String,
          ValidateCreateTokenTransaction w r.Id r.DocType r.Account st = .error err →
            CreateNIU w data st = (.error err, st))
        ∧ (∀ (v m : Bytes),
          ValidateCreateTokenTransaction w r.Id r.DocType r.Account st = .ok () →
          w.Marshal r = .ok v → w.MarshalMetaData r.MetaData = .ok m →
            CreateNIU w data st =
              match PutStateWithKYC w r.Id v st with
              | (.error err, st1) =>
                (.error ("unable to put Asset struct in statedb: " ++ err), st1)
              | (.ok (), st1) => (.ok (), st1))) := by
  refine ⟨?_, ?_, ?_⟩
  · intro hd
    simp only [CreateNIU, hr, if_pos hd]
  · intro hd h1 h2
    have hs : r.Status ≠ statusInProgress ∧ r.Status ≠ statusCompleted := ⟨h1, h2⟩
    simp only [CreateNIU, hr, if_neg hd, if_pos hs]
  · intro hd hs
    have hs0 : ¬ (r.Status ≠ statusInProgress ∧ r.Status ≠ statusCompleted) := by
      rintro ⟨h1, h2⟩
      rcases hs with h | h
      · exact h1 h
      · exact h2 h
    refine ⟨?_, ?_⟩
    · intro err hv
      simp only [CreateNIU, hr, if_neg hd, if_neg hs0, hv]
    · intro v m hv hm hmm
      simp only [CreateNIU, hr, if_neg hd, if_neg hs0, hv, hm, hmm]

/-- C13, at a concrete input: an input with the id and docType of A1 and an empty assetDigest. -/
theorem C13_create_field_checks_witness :
    (fixture.world "alice" ["alice"]).Unmarshal (fixture.render fixture.niuA1bad)
        = .ok fixture.niuA1bad
    ∧ fixture.niuA1bad.AssetDigest = ""
    ∧ CreateNIU (fixture.world "alice" ["alice"]) (fixture.render fixture.niuA1bad)
        fixture.genesis = (.error "assetDigest can not be null", fixture.genesis) :=
  ⟨rfl, rfl,
    (C13_create_field_checks (fixture.world "alice" ["alice"]) (fixture.render fixture.niuA1bad)
      fixture.genesis fixture.niuA1bad rfl).1 rfl⟩

theorem Store_mem_of_get (s : Store) (k : String) (b : Bytes) (h : Store.get s k = some b) :
    (k, b) ∈ s := by
  induction s with
  | nil => simp [Store.get] at h
  | cons kv rest ih =>
    obtain ⟨k0, v0⟩ := kv
    by_cases hk : k0 = k
    · subst hk
      simp only [Store.get, if_true] at h
      have hv : v0 = b := by simpa using h
      subst hv
      exact List.mem_cons_self _ _
    · simp only [Store.get, hk, if_false] at h
      exact List.mem_cons_of_mem _ (ih h)

/-- The duplicate-mint query finds a stored record with the given id and docType. -/
theorem IsMinted_of_duplicate (w : World) (st : State) (id docType : String)
    (hdup : DuplicateStored w st id docType)
    (hq : w.GetQueryResultErr (mintedQuery id docType) = none) :
    IsMinted w st id docType = .ok true := by
  obtain ⟨k, b, r, hget, hdec, hid, hdt⟩ := hdup
  have hmem := Store_mem_of_get st.store k b hget
  simp only [IsMinted, hq]
  congr 1
  rw [List.any_eq_true]
  exact ⟨(k, b), hmem, by simp [hdec, hid, hdt]⟩

/-- With a stored record of the given id and docType the creation-validation check fails. -/
theorem validate_duplicate_fails (w : World) (st : State) (id docType : String)
    (account : List String) (hdup : DuplicateStored w st id docType) :
    ∃ err : String, ValidateCreateTokenTransaction w id docType account st = .error err := by
  unfold ValidateCreateTokenTransaction
  cases hg : GetState w smartContractOwner st with
  | error e => exact ⟨e, rfl⟩
  | ok ob =>
    cases ob with
    | none => exact ⟨_, rfl⟩
    | some owner =>
      by_cases ho : owner = ""
      · simp only [ho, if_true]
        exact ⟨_, rfl⟩
      · simp only [ho, if_false]
        cases hP : GetUserID w with
        | error e => exact ⟨e, rfl⟩
        | ok P =>
          cases ha : w.MintAuthorized P account with
          | false => exact ⟨NotAuthorized, by simp [ha]⟩
          | true =>
            cases hq : w.GetQueryResultErr (mintedQuery id docType) with
            | some e => exact ⟨e, by simp [ha, IsMinted, hq]⟩
            | none =>
              exact ⟨DuplicateAsset,
                by simp [ha, IsMinted_of_duplicate w st id docType hdup hq]⟩

/-- With a stored record of the given id and docType, on a bootstrapped contract, for a caller
authorized to mint and a query that does not fail, the check fails with `DuplicateAsset`. -/
theorem validate_duplicate_eq (w : World) (st : State) (id docType : String)
    (account : List String) (owner P : String) (hdup : DuplicateStored w st id docType)
    (hg : GetState w smartContractOwner st = .ok (some owner)) (ho : owner ≠ "")
    (hP : GetUserID w = .ok P) (ha : w.MintAuthorized P account = true)
    (hq : w.GetQueryResultErr (mintedQuery id docType) = none) :
    ValidateCreateTokenTransaction w id docType account st = .error DuplicateAsset := by
  simp [ValidateCreateTokenTransaction, hg, ho, hP, ha,
    IsMinted_of_duplicate w st id docType hdup hq]

/-- A creation-validation check that succeeds found no stored record of the id and docType. -/
theorem validate_ok_no_duplicate (w : World) (st : State) (id docType : String)
    (account : List String)
    (hv : ValidateCreateTokenTransaction w id docType account st = .ok ()) :
    ¬ DuplicateStored w st id docType := by
  intro hdup
  obtain ⟨err, he⟩ := validate_duplicate_fails w st id docType account hdup
  rw [he] at hv
  simp at hv

/-- With a stored record of the id and docType of the input, `CreateNIU` fails and leaves the
state as it was. -/
theorem create_duplicate_fails (w : World) (data : String) (st : State) (r : NIU)
    (hr : w.Unmarshal data = .ok r) (hdup : DuplicateStored w st r.Id r.DocType) :
    ∃ err : String, CreateNIU w data st = (.error err, st) := by
  by_cases hd : r.AssetDigest = ""
  · exact ⟨"assetDigest can not be null", by simp only [CreateNIU, hr, if_pos hd]⟩
  · by_cases hs : r.Status ≠ statusInProgress ∧ r.Status ≠ statusCompleted
    · exact ⟨"not a valid Status", by simp only [CreateNIU, hr, if_neg hd, if_pos hs]⟩
    · obtain ⟨err, he⟩ := validate_duplicate_fails w st r.Id r.DocType r.Account hdup
      exact ⟨err, by simp only [CreateNIU, hr, if_neg hd, if_neg hs, he]⟩

/-- A successful `CreateNIU` passed the field checks and the validation, and wrote the
serialization of its input at the key of its id. -/
theorem create_success (w : World) (data : String) (st : State) (r : NIU)
    (hr : w.Unmarshal data = .ok r) (hok : (CreateNIU w data st).1 = .ok ()) :
    ∃ (v : Bytes) (P : String),
      w.Marshal r = .ok v ∧ GetUserID w = .ok P ∧ kycAnswer w P = .ok true
      ∧ ValidateCreateTokenTransaction w r.Id r.DocType r.Account st = .ok ()
      ∧ CreateNIU w data st =
          (.ok (), { store := Store.put st.store r.Id v, events := st.events,
                     trace := st.trace ++ [kycCall P, Call.PutState r.Id v] }) := by
  have hvalid : ValidateCreateTokenTransaction w r.Id r.DocType r.Account st = .ok () := by
    by_cases hd : r.AssetDigest = ""
    · simp [CreateNIU, hr, if_pos hd] at hok
    · by_cases hs : r.Status ≠ statusInProgress ∧ r.Status ≠ statusCompleted
      · simp [CreateNIU, hr, if_neg hd, if_pos hs] at hok
      · cases hv : ValidateCreateTokenTransaction w r.Id r.DocType r.Account st with
        | error e => simp [CreateNIU, hr, if_neg hd, if_neg hs, hv] at hok
        | ok u => rfl
  rcases CreateNIU_outcome w data st with ⟨err, looked, h⟩ | ⟨niu, v, P, hn, hm, hP, hk, h⟩
  · rw [h] at hok
    simp at hok
  · have e : niu = r := by
      have := hn.symm.trans hr
      simpa using this
    subst e
    rcases h with ⟨err, h⟩ | h
    · rw [h] at hok
      simp at hok
    · exact ⟨v, P, hm, hP, hk, hvalid, h⟩

/-- C14, as stated, fails: the store holds the asset A1 of docType ASSET-X; a `CreateNIU` whose
input carries that id and docType and an empty assetDigest fails with the error of the field
check, which comes before `ValidateCreateTokenTransaction`, and not with `DuplicateAsset`. -/
theorem C14_duplicate_with_empty_digest :
    DuplicateStored (fixture.world "alice" ["alice"]) fixture.minted
        fixture.niuA1bad.Id fixture.niuA1bad.DocType
    ∧ (fixture.world "alice" ["alice"]).Unmarshal (fixture.render fixture.niuA1bad)
        = .ok fixture.niuA1bad
    ∧ CreateNIU (fixture.world "alice" ["alice"]) (fixture.render fixture.niuA1bad)
        fixture.minted = (.error "assetDigest can not be null", fixture.minted)
    ∧ (CreateNIU (fixture.world "alice" ["alice"]) (fixture.render fixture.niuA1bad)
        fixture.minted).1 ≠ .error DuplicateAsset :=
  ⟨⟨"A1", fixture.render fixture.niuA1, fixture.niuA1, rfl, rfl, rfl, rfl⟩, rfl, rfl, by decide⟩

/-- C14, amended: for every store that already contains a record with the id and docType of the
input, `CreateNIU` fails and leaves the state as it was, so the store and its number of keys are
unchanged; the error is `DuplicateAsset`, the error of `ValidateCreateTokenTransaction` returned
unchanged, when the input passes the two field checks and the checks that come before the
duplicate query pass (the owner key holds a non-empty value, the caller resolves and is
authorized to mint, the query does not fail). -/
theorem C14_duplicate_create_rejected (w : World) (data : String) (st : State) (r : NIU)
    (hr : w.Unmarshal data = .ok r) (hdup : DuplicateStored w st r.Id r.DocType) :
    (∃ err : String, CreateNIU w data st = (.error err, st))
    ∧ (CreateNIU w data st).2.store = st.store
    ∧ (CreateNIU w data st).2.store.length = st.store.length
    ∧ (r.AssetDigest ≠ "" → (r.Status = "INPROGRESS" ∨ r.Status = "COMPLETED") →
        ∀ owner P : String, GetState w smartContractOwner st = .ok (some owner) → owner ≠ "" →
          GetUserID w = .ok P → w.MintAuthorized P r.Account = true →
          w.GetQueryResultErr (mintedQuery r.Id r.DocType) = none →
            ValidateCreateTokenTransaction w r.Id r.DocType r.Account st = .error DuplicateAsset
            ∧ CreateNIU w data st = (.error DuplicateAsset, st)) := by
  obtain ⟨err, hfail⟩ := create_duplicate_fails w data st r hr hdup
  refine ⟨⟨err, hfail⟩, by rw [hfail], by rw [hfail], ?_⟩
  intro hd hs owner P hg ho hP ha hq
  have hv := validate_duplicate_eq w st r.Id r.DocType r.Account owner P hdup hg ho hP ha hq
  have hs0 : ¬ (r.Status ≠ statusInProgress ∧ r.Status ≠ statusCompleted) := by
    rintro ⟨h1, h2⟩
    rcases hs with h | h
    · exact h1 h
    · exact h2 h
  refine ⟨hv, ?_⟩
  simp only [CreateNIU, hr, if_neg hd, if_neg hs0, hv]

/-- C14 amended, at the scenario of the spec: alice creates A1 a second time. -/
theorem C14_duplicate_create_rejected_witness :
    (fixture.world "alice" ["alice"]).Unmarshal (fixture.render fixture.niuA1) = .ok fixture.niuA1
    ∧ DuplicateStored (fixture.world "alice" ["alice"]) fixture.minted
        fixture.niuA1.Id fixture.niuA1.DocType
    ∧ CreateNIU (fixture.world "alice" ["alice"]) (fixture.render fixture.niuA1) fixture.minted
        = (.error DuplicateAsset, fixture.minted) :=
  have hdup : DuplicateStored (fixture.world "alice" ["alice"]) fixture.minted
      fixture.niuA1.Id fixture.niuA1.DocType :=
    ⟨"A1", fixture.render fixture.niuA1, fixture.niuA1, rfl, rfl, rfl, rfl⟩
  ⟨rfl, hdup,
    ((C14_duplicate_create_rejected (fixture.world "alice" ["alice"])
      (fixture.render fixture.niuA1) fixture.minted fixture.niuA1 rfl hdup).2.2.2
      (by decide) (Or.inr rfl) "alice" "alice" rfl (by decide) rfl rfl rfl).2⟩

/-- C15: `CreateNIU` success postcondition. For every input that parses to a record `r` with
non-empty assetDigest and valid status, when `ValidateCreateTokenTransaction(r.Id, r.DocType,
r.Account)` succeeds and the caller is compliant, with `v` the serialization of `r` (the metadata
serializing too, and the ledger accepting the write): the call returns no error and performs
exactly one store write, at key `r.Id` with value `v`; no other key changes and no event is
emitted. -/
theorem C15_create_success (w : World) (data : String) (st : State) (r : NIU) (v m : Bytes)
    (P : String) (hr : w.Unmarshal data = .ok r) (hd : r.AssetDigest ≠ "")
    (hs : r.Status = "INPROGRESS" ∨ r.Status = "COMPLETED")
    (hv : ValidateCreateTokenTransaction w r.Id r.DocType r.Account st = .ok ())
    (hP : GetUserID w = .ok P) (hk : kycAnswer w P = .ok true)
    (hm : w.Marshal r = .ok v) (hmm : w.MarshalMetaData r.MetaData = .ok m)
    (hput : w.PutStateErr r.Id v = none) :
    (CreateNIU w data st).1 = .ok ()
    ∧ writes (CreateNIU w data st).2.trace = writes st.trace ++ [Call.PutState r.Id v]
    ∧ Store.get (CreateNIU w data st).2.store r.Id = some v
    ∧ (∀ k : String, k ≠ r.Id →
        Store.get (CreateNIU w data st).2.store k = Store.get st.store k)
    ∧ (CreateNIU w data st).2.events = st.events := by
  have hs0 : ¬ (r.Status ≠ statusInProgress ∧ r.Status ≠ statusCompleted) := by
    rintro ⟨h1, h2⟩
    rcases hs with h | h
    · exact h1 h
    · exact h2 h
  have hres : CreateNIU w data st =
      (.ok (), { store := Store.put st.store r.Id v, events := st.events,
                 trace := st.trace ++ [kycCall P, Call.PutState r.Id v] }) := by
    simp only [CreateNIU, hr, if_neg hd, if_neg hs0, hv, hm, hmm]
    rw [PutStateWithKYC_eq, hP]
    simp only [hk, PutState, hput]
    simp
  rw [hres]
  refine ⟨rfl, ?_, Store.get_put_same _ _ _, fun k hk0 => Store.get_put_other _ _ _ _ hk0, rfl⟩
  simp [writes_append, writes, Call.isMutation, kycCall]

/-- C15, at the scenario of the spec: alice, owner and KYCed, creates the asset A1. -/
theorem C15_create_success_witness :
    (fixture.world "alice" ["alice"]).Unmarshal (fixture.render fixture.niuA1) = .ok fixture.niuA1
    ∧ ValidateCreateTokenTransaction (fixture.world "alice" ["alice"]) fixture.niuA1.Id
        fixture.niuA1.DocType fixture.niuA1.Account fixture.genesis = .ok ()
    ∧ (CreateNIU (fixture.world "alice" ["alice"]) (fixture.render fixture.niuA1)
        fixture.genesis).1 = .ok ()
    ∧ Store.get (CreateNIU (fixture.world "alice" ["alice"]) (fixture.render fixture.niuA1)
        fixture.genesis).2.store fixture.niuA1.Id = some (fixture.render fixture.niuA1) :=
  have h := C15_create_success (fixture.world "alice" ["alice"]) (fixture.render fixture.niuA1)
    fixture.genesis fixture.niuA1 (fixture.render fixture.niuA1) "null" "alice" rfl (by decide)
    (Or.inr rfl) rfl rfl rfl rfl rfl rfl
  ⟨rfl, rfl, h.1, h.2.2.1⟩

/-- C16: create/read round trip. For every input record `r` accepted by `CreateNIU` (the call
succeeds) and every principal `p` in `r.Account`, `json.Unmarshal` giving back `r` from the
serialization of `r`, a `ReadNIU(r.Id)` by `p` on the store produced by the create returns a
record whose every field (id, docType, name, type, desc, status, account, metadata, amount, uri,
assetDigest) equals the corresponding field of `r`. -/
theorem C16_create_read_round_trip (w reader : World) (data : String) (st : State) (r : NIU)
    (p : String) (hr : w.Unmarshal data = .ok r) (hok : (CreateNIU w data st).1 = .ok ())
    (hround : RoundTrip w reader r) (hp : GetUserID reader = .ok p) (hmem : p ∈ r.Account)
    (hread : reader.GetStateErr r.Id = none) :
    ∃ r2 : NIU, ReadNIU reader r.Id (CreateNIU w data st).2 = .ok r2
      ∧ r2.Id = r.Id ∧ r2.DocType = r.DocType ∧ r2.Name = r.Name ∧ r2.Typ = r.Typ
      ∧ r2.Desc = r.Desc ∧ r2.Status = r.Status ∧ r2.Account = r.Account
      ∧ r2.MetaData = r.MetaData ∧ r2.Amount = r.Amount ∧ r2.Uri = r.Uri
      ∧ r2.AssetDigest = r.AssetDigest := by
  obtain ⟨v, P, hm, _, _, _, hres⟩ := create_success w data st r hr hok
  have hdec : reader.Unmarshal v = .ok r := hround v hm
  have hget : GetState reader r.Id (CreateNIU w data st).2 = .ok (some v) := by
    rw [hres]
    simp only [GetState, hread, Store.get_put_same]
  refine ⟨r, ?_, rfl, rfl, rfl, rfl, rfl, rfl, rfl, rfl, rfl, rfl, rfl⟩
  simp only [ReadNIU, hget, hdec, hp, slicesContains, hmem, decide_True, Bool.not_true,
    Bool.false_eq_true, if_false]

/-- C16, at the scenario of the spec: alice creates A1 and reads it back. -/
theorem C16_create_read_round_trip_witness :
    (CreateNIU (fixture.world "alice" ["alice"]) (fixture.render fixture.niuA1)
        fixture.genesis).1 = .ok ()
    ∧ RoundTrip (fixture.world "alice" ["alice"]) (fixture.world "alice" []) fixture.niuA1
    ∧ ∃ r2 : NIU, ReadNIU (fixture.world "alice" []) fixture.niuA1.Id
          (CreateNIU (fixture.world "alice" ["alice"]) (fixture.render fixture.niuA1)
            fixture.genesis).2 = .ok r2
        ∧ r2.Id = fixture.niuA1.Id ∧ r2.Account = fixture.niuA1.Account
        ∧ r2.AssetDigest = fixture.niuA1.AssetDigest :=
  have hround : RoundTrip (fixture.world "alice" ["alice"]) (fixture.world "alice" [])
      fixture.niuA1 := by
    intro v hv
    have e : fixture.render fixture.niuA1 = v := by
      simpa [fixture.world] using hv
    rw [← e]
    rfl
  have h := C16_create_read_round_trip (fixture.world "alice" ["alice"])
    (fixture.world "alice" []) (fixture.render fixture.niuA1) fixture.genesis fixture.niuA1
    "alice" rfl rfl hround rfl (by decide) rfl
  ⟨rfl, hround, h.imp (fun _ hr2 => ⟨hr2.1, hr2.2.1, hr2.2.2.2.2.2.2.2.1, hr2.2.2.2.2.2.2.2.2.2.2.2⟩)⟩

/-- A successful `TransferNIU` read a COMPLETED record none of whose holders is a receiver, and
wrote at `id` the serialization of that record with the receivers as its account. -/
theorem transfer_success (w : World) (senders receivers : List String) (id docType : String)
    (amount : Nat) (timeStamp : String) (st : State)
    (hok : (TransferNIU w senders receivers id docType amount timeStamp st).1 = .ok ()) :
    ∃ (b : Bytes) (r : NIU) (v : Bytes),
      Stored w st id b r
      ∧ (∀ x ∈ receivers, x ∉ r.Account)
      ∧ r.Status = statusCompleted
      ∧ w.Marshal { r with Account := receivers } = .ok v
      ∧ (TransferNIU w senders receivers id docType amount timeStamp st).2.store
          = Store.put st.store id v := by
  rcases TransferNIU_outcome w senders receivers id docType amount timeStamp st with
    ⟨err, looked, h⟩ | ⟨b, r, v, P, hst, hall, hm, hs, _, _, h⟩
  · rw [h] at hok
    simp at hok
  · rcases h with ⟨err, h⟩ | ⟨err, h⟩ | h
    · rw [h] at hok
      simp at hok
    · rw [h] at hok
      simp at hok
    · exact ⟨b, r, v, hst, fun x hx => (hall x hx).2, hs, hm, by rw [h]⟩

/-- The store after any run of `TransferNIU` is the store before, or the store before with the
serialization of the updated COMPLETED record written at `id`. -/
theorem transfer_store (w : World) (senders receivers : List String) (id docType : String)
    (amount : Nat) (timeStamp : String) (st : State) :
    (TransferNIU w senders receivers id docType amount timeStamp st).2.store = st.store
    ∨ ∃ (b : Bytes) (r : NIU) (v : Bytes),
        Stored w st id b r ∧ r.Status = statusCompleted
        ∧ w.Marshal { r with Account := receivers } = .ok v
        ∧ (TransferNIU w senders receivers id docType amount timeStamp st).2.store
            = Store.put st.store id v := by
  rcases TransferNIU_outcome w senders receivers id docType amount timeStamp st with
    ⟨err, looked, h⟩ | ⟨b, r, v, P, hst, _, hm, hs, _, _, h⟩
  · exact Or.inl (by rw [h])
  · rcases h with ⟨err, h⟩ | ⟨err, h⟩ | h
    · exact Or.inl (by rw [h])
    · exact Or.inr ⟨b, r, v, hst, hs, hm, by rw [h]⟩
    · exact Or.inr ⟨b, r, v, hst, hs, hm, by rw [h]⟩

/-- The store after any run of `BurnTokens` is the store before, or the store before without
the key `id`. -/
theorem burn_store (w : World) (id account : String) (amount : Nat) (st : State) :
    (BurnTokens w id account amount st).2.store = st.store
    ∨ (BurnTokens w id account amount st).2.store = Store.del st.store id := by
  rcases BurnTokens_outcome w id account amount st with ⟨err, h⟩ | ⟨b, r, P, _, _, _, _, h⟩
  · exact Or.inl (by rw [h])
  · rcases h with ⟨err, h⟩ | ⟨err, h⟩ | h
    · exact Or.inl (by rw [h])
    · exact Or.inr (by rw [h])
    · exact Or.inr (by rw [h])

/-- The store after any run of `CreateNIU` is the store before, or, the input parsing to a record
that the validation accepted, the store before with a value written at the key of its id. -/
theorem create_store (w : World) (data : String) (st : State) :
    (CreateNIU w data st).2.store = st.store
    ∨ ∃ (r : NIU) (v : Bytes), w.Unmarshal data = .ok r
        ∧ ¬ DuplicateStored w st r.Id r.DocType
        ∧ (CreateNIU w data st).2.store = Store.put st.store r.Id v := by
  rcases CreateNIU_outcome w data st with ⟨err, looked, h⟩ | ⟨r, v, P, hr, _, _, _, h⟩
  · exact Or.inl (by rw [h])
  · rcases h with ⟨err, h⟩ | h
    · exact Or.inl (by rw [h])
    · refine Or.inr ⟨r, v, hr, ?_, by rw [h]⟩
      intro hdup
      obtain ⟨err, hfail⟩ := create_duplicate_fails w data st r hr hdup
      rw [hfail] at h
      simp at h

theorem stillCompleted_of_same (w : World) (st : State) (after : Store) (k : String)
    (hbefore : CompletedAt w st k) (hsame : Store.get after k = Store.get st.store k) :
    StillCompletedAt w after k := by
  obtain ⟨b, r, hget, hdec, hs⟩ := hbefore
  intro b2 r2 hget2 hdec2
  rw [hsame, hget] at hget2
  have e : b = b2 := by simpa using hget2
  subst e
  have e2 := hdec.symm.trans hdec2
  have e3 : r = r2 := by simpa using e2
  rw [← e3]
  exact hs

/-- C17, as stated, fails: the store holds the asset A1 of docType ASSET-X at key A1; alice,
owner and KYCed, calls `CreateNIU` with an input of id A1 and docType ASSET-Y; the duplicate
check, which selects by id and docType, finds nothing, the call succeeds, and the record stored
at A1 is replaced. -/
theorem C17_create_overwrites_other_docType :
    Store.get fixture.minted.store "A1" = some (fixture.render fixture.niuA1)
    ∧ (fixture.world "alice" ["alice"]).Unmarshal (fixture.render fixture.niuA1y)
        = .ok fixture.niuA1y
    ∧ fixture.niuA1y.Id = "A1"
    ∧ (CreateNIU (fixture.world "alice" ["alice"]) (fixture.render fixture.niuA1y)
        fixture.minted).1 = .ok ()
    ∧ Store.get (CreateNIU (fixture.world "alice" ["alice"]) (fixture.render fixture.niuA1y)
        fixture.minted).2.store "A1" = some (fixture.render fixture.niuA1y)
    ∧ fixture.render fixture.niuA1y ≠ fixture.render fixture.niuA1 :=
  ⟨rfl, rfl, rfl, rfl, rfl, by decide⟩

/-- C17, amended: for every store that already holds at the key of the input's id a record with
that id and with the docType of the input, no call of `CreateNIU` with that input replaces or
alters the record: the call fails and the state is as it was. A successful `CreateNIU` writes
only the key of its input's id, and only when no stored record has the id and docType of the
input. -/
theorem C17_create_keeps_same_pair (w : World) (data : String) (st : State) (r : NIU)
    (hr : w.Unmarshal data = .ok r) :
    (∀ (b0 : Bytes) (r0 : NIU), Store.get st.store r.Id = some b0 → w.Unmarshal b0 = .ok r0 →
        r0.Id = r.Id → r0.DocType = r.DocType →
        (∃ err : String, CreateNIU w data st = (.error err, st))
        ∧ Store.get (CreateNIU w data st).2.store r.Id = some b0)
    ∧ ((CreateNIU w data st).1 = .ok () →
        ¬ DuplicateStored w st r.Id r.DocType
        ∧ ∀ k : String, k ≠ r.Id →
            Store.get (CreateNIU w data st).2.store k = Store.get st.store k) := by
  constructor
  · intro b0 r0 hget hdec hid hdt
    have hdup : DuplicateStored w st r.Id r.DocType := ⟨r.Id, b0, r0, hget, hdec, hid, hdt⟩
    obtain ⟨err, hfail⟩ := create_duplicate_fails w data st r hr hdup
    exact ⟨⟨err, hfail⟩, by rw [hfail]; exact hget⟩
  · intro hok
    obtain ⟨v, P, _, _, _, hv, hres⟩ := create_success w data st r hr hok
    refine ⟨validate_ok_no_duplicate w st r.Id r.DocType r.Account hv, ?_⟩
    intro k hk
    rw [hres]
    exact Store.get_put_other _ _ _ _ hk

/-- C17 amended, at a concrete input: alice creates A1, of docType ASSET-X, a second time. -/
theorem C17_create_keeps_same_pair_witness :
    (fixture.world "alice" ["alice"]).Unmarshal (fixture.render fixture.niuA1) = .ok fixture.niuA1
    ∧ Store.get fixture.minted.store fixture.niuA1.Id = some (fixture.render fixture.niuA1)
    ∧ Store.get (CreateNIU (fixture.world "alice" ["alice"]) (fixture.render fixture.niuA1)
        fixture.minted).2.store fixture.niuA1.Id = some (fixture.render fixture.niuA1) :=
  ⟨rfl, rfl,
    ((C17_create_keeps_same_pair (fixture.world "alice" ["alice"]) (fixture.render fixture.niuA1)
      fixture.minted fixture.niuA1 rfl).1 (fixture.render fixture.niuA1) fixture.niuA1
      rfl rfl rfl rfl).2⟩

/-- C18, as stated, fails for `CreateNIU`: on the store reached by creating the COMPLETED asset
A1, a `CreateNIU` with an input of the same id, another docType and status INPROGRESS succeeds,
and the record present at A1 afterwards is in progress. -/
theorem C18_create_moves_status_backward :
    fixture.minted = (CreateNIU (fixture.world "alice" ["alice"]) (fixture.render fixture.niuA1)
        fixture.genesis).2
    ∧ CompletedAt (fixture.world "alice" ["alice"]) fixture.minted "A1"
    ∧ (CreateNIU (fixture.world "alice" ["alice"]) (fixture.render fixture.niuA1y)
        fixture.minted).1 = .ok ()
    ∧ ¬ StillCompletedAt (fixture.world "alice" ["alice"])
        (CreateNIU (fixture.world "alice" ["alice"]) (fixture.render fixture.niuA1y)
          fixture.minted).2.store "A1" :=
  ⟨rfl, ⟨fixture.render fixture.niuA1, fixture.niuA1, rfl, rfl, rfl⟩, rfl,
    fun h => absurd (h (fixture.render fixture.niuA1y) fixture.niuA1y rfl rfl) (by decide)⟩

/-- C18, amended: status never moves backward under `TransferNIU` and `BurnTokens` (and `ReadNIU`,
which changes no state): for every store and every single call, if the record at a key had status
COMPLETED before the call and a record is present at that key after the call, then its status is
still COMPLETED, `json.Unmarshal` giving back the record that `TransferNIU` serialized. Under
`CreateNIU` the same holds at every key except the key of the input's id when no stored record
has the id and docType of the input. -/
theorem C18_status_kept (w : World) (senders receivers : List String) (id docType : String)
    (amount : Nat) (timeStamp : String) (account : String) (data : String) (st : State)
    (k : String) (hbefore : CompletedAt w st k)
    (hround : ∀ (b : Bytes) (r : NIU), Stored w st id b r →
      RoundTrip w w { r with Account := receivers }) :
    StillCompletedAt w (TransferNIU w senders receivers id docType amount timeStamp st).2.store k
    ∧ StillCompletedAt w (BurnTokens w id account amount st).2.store k
    ∧ ((∀ r : NIU, w.Unmarshal data = .ok r → k = r.Id → DuplicateStored w st r.Id r.DocType) →
        StillCompletedAt w (CreateNIU w data st).2.store k) := by
  refine ⟨?_, ?_, ?_⟩
  · rcases transfer_store w senders receivers id docType amount timeStamp st with
      h | ⟨b, r, v, hst, hs, hm, h⟩
    · exact stillCompleted_of_same w st _ k hbefore (by rw [h])
    · by_cases hk : k = id
      · subst hk
        intro b2 r2 hget2 hdec2
        rw [h, Store.get_put_same] at hget2
        have e : v = b2 := by simpa using hget2
        subst e
        have hdec := hround b r hst v hm
        have e2 := hdec.symm.trans hdec2
        have e3 : ({ r with Account := receivers } : NIU) = r2 := by simpa using e2
        rw [← e3]
        exact hs
      · exact stillCompleted_of_same w st _ k hbefore
          (by rw [h]; exact Store.get_put_other _ _ _ _ hk)
  · rcases burn_store w id account amount st with h | h
    · exact stillCompleted_of_same w st _ k hbefore (by rw [h])
    · by_cases hk : k = id
      · subst hk
        intro b2 r2 hget2 _
        rw [h, Store.get_del_same] at hget2
        simp at hget2
      · exact stillCompleted_of_same w st _ k hbefore
          (by rw [h]; exact Store.get_del_other _ _ _ hk)
  · intro hkey
    rcases create_store w data st with h | ⟨r, v, hr, hnodup, h⟩
    · exact stillCompleted_of_same w st _ k hbefore (by rw [h])
    · by_cases hk : k = r.Id
      · exact absurd (hkey r hr hk) hnodup
      · exact stillCompleted_of_same w st _ k hbefore
          (by rw [h]; exact Store.get_put_other _ _ _ _ hk)

/-- C18 amended, at a concrete input: the transfer of the COMPLETED asset A1 to carol. -/
theorem C18_status_kept_witness :
    CompletedAt (fixture.world "alice" ["alice", "carol"]) fixture.ledger "A1"
    ∧ StillCompletedAt (fixture.world "alice" ["alice", "carol"])
        (TransferNIU (fixture.world "alice" ["alice", "carol"]) ["alice"] ["carol"] "A1"
          "ASSET-X" 0 "" fixture.ledger).2.store "A1"
    ∧ Store.get (TransferNIU (fixture.world "alice" ["alice", "carol"]) ["alice"] ["carol"] "A1"
          "ASSET-X" 0 "" fixture.ledger).2.store "A1" = some (fixture.render fixture.niuA1carol) :=
  have hbefore : CompletedAt (fixture.world "alice" ["alice", "carol"]) fixture.ledger "A1" :=
    ⟨fixture.render fixture.niuA1, fixture.niuA1, rfl, rfl, rfl⟩
  have hround : ∀ (b : Bytes) (r : NIU),
      Stored (fixture.world "alice" ["alice", "carol"]) fixture.ledger "A1" b r →
      RoundTrip (fixture.world "alice" ["alice", "carol"])
        (fixture.world "alice" ["alice", "carol"]) { r with Account := ["carol"] } := by
    intro b r hst v hv
    have h0 : Stored (fixture.world "alice" ["alice", "carol"]) fixture.ledger "A1"
        (fixture.render fixture.niuA1) fixture.niuA1 := ⟨rfl, rfl⟩
    obtain ⟨_, rfl⟩ := Stored_unique h0 hst
    have e : fixture.render fixture.niuA1carol = v := by
      simpa [fixture.world] using hv
    rw [← e]
    rfl
  ⟨hbefore,
    (C18_status_kept (fixture.world "alice" ["alice", "carol"]) ["alice"] ["carol"] "A1"
      "ASSET-X" 0 "" "alice" "" fixture.ledger "A1" hbefore hround).1,
    rfl⟩

/-- C19: no overlap between the source and the destination of a transfer. For every successful
`TransferNIU`, the account list of the record stored at `id` before the call and the account list
of the record written at `id` by the call (the receivers) have no principal in common. -/
theorem C19_transfer_accounts_disjoint (w : World) (senders receivers : List String)
    (id docType : String) (amount : Nat) (timeStamp : String) (st : State)
    (hok : (TransferNIU w senders receivers id docType amount timeStamp st).1 = .ok ()) :
    ∃ (b : Bytes) (r : NIU) (v : Bytes),
      Stored w st id b r
      ∧ w.Marshal { r with Account := receivers } = .ok v
      ∧ Store.get (TransferNIU w senders receivers id docType amount timeStamp st).2.store id
          = some v
      ∧ ({ r with Account := receivers } : NIU).Account = receivers
      ∧ (∀ x : String, x ∈ r.Account → x ∉ receivers)
      ∧ (∀ x : String, x ∈ receivers → x ∉ r.Account) := by
  obtain ⟨b, r, v, hst, hnot, _, hm, hstore⟩ :=
    transfer_success w senders receivers id docType amount timeStamp st hok
  refine ⟨b, r, v, hst, hm, ?_, rfl, fun x hx hrec => hnot x hrec hx, hnot⟩
  rw [hstore]
  exact Store.get_put_same _ _ _

/-- C19, at the scenario of the spec: alice transfers A1 to carol. -/
theorem C19_transfer_accounts_disjoint_witness :
    (TransferNIU (fixture.world "alice" ["alice", "carol"]) ["alice"] ["carol"] "A1" "ASSET-X"
        0 "" fixture.ledger).1 = .ok ()
    ∧ ∃ (b : Bytes) (r : NIU) (v : Bytes),
        Stored (fixture.world "alice" ["alice", "carol"]) fixture.ledger "A1" b r
        ∧ (fixture.world "alice" ["alice", "carol"]).Marshal { r with Account := ["carol"] }
            = .ok v
        ∧ Store.get (TransferNIU (fixture.world "alice" ["alice", "carol"]) ["alice"] ["carol"]
            "A1" "ASSET-X" 0 "" fixture.ledger).2.store "A1" = some v
        ∧ ({ r with Account := ["carol"] } : NIU).Account = ["carol"]
        ∧ (∀ x : String, x ∈ r.Account → x ∉ ["carol"])
        ∧ (∀ x : String, x ∈ ["carol"] → x ∉ r.Account) :=
  ⟨rfl,
    C19_transfer_accounts_disjoint (fixture.world "alice" ["alice", "carol"]) ["alice"] ["carol"]
      "A1" "ASSET-X" 0 "" fixture.ledger rfl⟩

/-- C20: a transfer changes only the account. For every successful `TransferNIU` on a record `r`
stored at `id`, `json.Unmarshal` giving back the record that was serialized, the record stored
afterwards at `id` has the same id, docType, name, type, desc, status, metadata, amount, uri and
assetDigest as `r`, its account being the receivers, and every store key other than `id` keeps
its previous value. -/
theorem C20_transfer_changes_only_account (w : World) (senders receivers : List String)
    (id docType : String) (amount : Nat) (timeStamp : String) (st : State) (b : Bytes) (r : NIU)
    (hst : Stored w st id b r)
    (hok : (TransferNIU w senders receivers id docType amount timeStamp st).1 = .ok ())
    (hround : RoundTrip w w { r with Account := receivers }) :
    (∃ (b2 : Bytes) (r2 : NIU),
      Stored w (TransferNIU w senders receivers id docType amount timeStamp st).2 id b2 r2
      ∧ r2.Id = r.Id ∧ r2.DocType = r.DocType ∧ r2.Name = r.Name ∧ r2.Typ = r.Typ
      ∧ r2.Desc = r.Desc ∧ r2.Status = r.Status ∧ r2.MetaData = r.MetaData
      ∧ r2.Amount = r.Amount ∧ r2.Uri = r.Uri ∧ r2.AssetDigest = r.AssetDigest
      ∧ r2.Account = receivers)
    ∧ (∀ k : String, k ≠ id →
        Store.get (TransferNIU w senders receivers id docType amount timeStamp st).2.store k
          = Store.get st.store k) := by
  obtain ⟨b0, r0, v, hst0, _, _, hm, hstore⟩ :=
    transfer_success w senders receivers id docType amount timeStamp st hok
  obtain ⟨_, rfl⟩ := Stored_unique hst hst0
  have hreadable : w.GetStateErr id = none := by
    have hg := hst.1
    unfold GetState at hg
    cases he : w.GetStateErr id with
    | some e => simp [he] at hg
    | none => rfl
  constructor
  · refine ⟨v, { r0 with Account := receivers }, ⟨?_, hround v hm⟩,
      rfl, rfl, rfl, rfl, rfl, rfl, rfl, rfl, rfl, rfl, rfl⟩
    simp only [GetState, hreadable, hstore, Store.get_put_same]
  · intro k hk
    rw [hstore]
    exact Store.get_put_other _ _ _ _ hk

/-- C20, at the scenario of the spec: alice transfers A1 to carol; the asset B2 is untouched. -/
theorem C20_transfer_changes_only_account_witness :
    Stored (fixture.world "alice" ["alice", "carol"]) fixture.ledger "A1"
        (fixture.render fixture.niuA1) fixture.niuA1
    ∧ Stored (fixture.world "alice" ["alice", "carol"])
        (TransferNIU (fixture.world "alice" ["alice", "carol"]) ["alice"] ["carol"] "A1"
          "ASSET-X" 0 "" fixture.ledger).2 "A1"
        (fixture.render fixture.niuA1carol) fixture.niuA1carol
    ∧ Store.get (TransferNIU (fixture.world "alice" ["alice", "carol"]) ["alice"] ["carol"] "A1"
          "ASSET-X" 0 "" fixture.ledger).2.store "B2" = Store.get fixture.ledger.store "B2" :=
  have hst : Stored (fixture.world "alice" ["alice", "carol"]) fixture.ledger "A1"
      (fixture.render fixture.niuA1) fixture.niuA1 := ⟨rfl, rfl⟩
  have hround : RoundTrip (fixture.world "alice" ["alice", "carol"])
      (fixture.world "alice" ["alice", "carol"])
      { fixture.niuA1 with Account := ["carol"] } := by
    intro v hv
    have e : fixture.render fixture.niuA1carol = v := by
      simpa [fixture.world] using hv
    rw [← e]
    rfl
  ⟨hst, ⟨rfl, rfl⟩,
    (C20_transfer_changes_only_account (fixture.world "alice" ["alice", "carol"]) ["alice"]
      ["carol"] "A1" "ASSET-X" 0 "" fixture.ledger (fixture.render fixture.niuA1) fixture.niuA1
      hst rfl hround).2 "B2" (by decide)⟩

end smartcontract

/-! ## Failures after the write -/

namespace smartcontract

open kalpsdk

/-- C21: a failure after the write is surfaced but not rolled back. For every call of `TransferNIU`
in which all checks pass and the store write succeeds but the event emission fails, the call
returns an error and the store nevertheless holds the updated record at `id`; for every call of
`BurnTokens` in which all checks pass and the delete succeeds but the event emission fails, the
call returns an error and the store no longer holds the record. No event is recorded. -/
theorem C21_failure_after_write_kept (w : World) (senders receivers : List String)
    (id docType : String) (amount : Nat) (timeStamp : String) (account : String) (st : State)
    (b : Bytes) (r : NIU) (v : Bytes) (P : String) (e : String)
    (hst : Stored w st id b r) (hs : r.Status = statusCompleted) (hP : GetUserID w = .ok P) :
    ((∀ x ∈ receivers, kycAnswer w x = .ok true ∧ x ∉ r.Account) →
      kycAnswer w P = .ok true →
      w.Marshal { r with Account := receivers } = .ok v →
      w.PutStateErr id v = none →
      w.SetEventErr "TransferNIU" v = some e →
        (TransferNIU w senders receivers id docType amount timeStamp st).1
            = .error ("unable to setEvent TransferNIU: " ++ e)
        ∧ Store.get (TransferNIU w senders receivers id docType amount timeStamp st).2.store id
            = some v
        ∧ (TransferNIU w senders receivers id docType amount timeStamp st).2.events = st.events)
    ∧ (P ∈ r.Account →
      w.DelStateErr id = none →
      w.SetEventErr "DeleteNIU" b = some e →
        (BurnTokens w id account amount st).1 = .error ("unable to set event DeleteNIU: " ++ e)
        ∧ Store.get (BurnTokens w id account amount st).2.store id = none
        ∧ Store.get st.store id = some b
        ∧ (BurnTokens w id account amount st).2.events = st.events) := by
  constructor
  · intro hall hk hm hput hev
    have hres : TransferNIU w senders receivers id docType amount timeStamp st =
        (.error ("unable to setEvent TransferNIU: " ++ e),
          { store := Store.put st.store id v, events := st.events,
            trace := st.trace ++ receivers.map kycCall ++
              [kycCall P, Call.PutState id v, Call.SetEvent "TransferNIU" v] }) := by
      have hm0 := hm
      rw [hs] at hm0
      simp only [TransferNIU, hst.1, hst.2, checkReceivers_pass w r.Account receivers st hall,
        hs, hm0, ne_eq, not_true_eq_false, if_false]
      rw [PutStateWithKYC_eq, hP]
      simp only [hk, PutState, hput, SetEvent, hev]
      simp
    rw [hres]
    exact ⟨rfl, Store.get_put_same _ _ _, rfl⟩
  · intro hmem hdel hev
    have hres : BurnTokens w id account amount st =
        (.error ("unable to set event DeleteNIU: " ++ e),
          { store := Store.del st.store id, events := st.events,
            trace := st.trace ++ [Call.DelState id, Call.SetEvent "DeleteNIU" b] }) := by
      simp only [BurnTokens, hst.1, hst.2, hP, slicesContains, hmem, hs, DelStateWithoutKYC,
        DelState, decide_True, Bool.not_true, ne_eq, not_true_eq_false, if_false,
        Bool.false_eq_true, hdel, SetEvent, hev]
      simp
    rw [hres]
    exact ⟨rfl, Store.get_del_same _ _, Stored_get_eq hst, rfl⟩

/-- C21, at concrete inputs: with an event sink that refuses every event, alice transfers A1 to
carol, and alice burns A1. -/
theorem C21_failure_after_write_kept_witness :
    Stored (fixture.worldEventDown "alice" ["alice", "carol"]) fixture.ledger "A1"
        (fixture.render fixture.niuA1) fixture.niuA1
    ∧ (TransferNIU (fixture.worldEventDown "alice" ["alice", "carol"]) ["alice"] ["carol"] "A1"
          "ASSET-X" 0 "" fixture.ledger).1
        = .error ("unable to setEvent TransferNIU: " ++ "event sink unavailable")
    ∧ Store.get (TransferNIU (fixture.worldEventDown "alice" ["alice", "carol"]) ["alice"]
          ["carol"] "A1" "ASSET-X" 0 "" fixture.ledger).2.store "A1"
        = some (fixture.render fixture.niuA1carol)
    ∧ (BurnTokens (fixture.worldEventDown "alice" ["alice", "carol"]) "A1" "alice" 0
          fixture.ledger).1 = .error ("unable to set event DeleteNIU: " ++ "event sink unavailable")
    ∧ Store.get (BurnTokens (fixture.worldEventDown "alice" ["alice", "carol"]) "A1" "alice" 0
          fixture.ledger).2.store "A1" = none :=
  have hst : Stored (fixture.worldEventDown "alice" ["alice", "carol"]) fixture.ledger "A1"
      (fixture.render fixture.niuA1) fixture.niuA1 := ⟨rfl, rfl⟩
  have h := C21_failure_after_write_kept (fixture.worldEventDown "alice" ["alice", "carol"])
    ["alice"] ["carol"] "A1" "ASSET-X" 0 "" "alice" fixture.ledger (fixture.render fixture.niuA1)
    fixture.niuA1 (fixture.render fixture.niuA1carol) "alice" "event sink unavailable" hst rfl rfl
  have ht := h.1 (fun x hx => by rw [List.mem_singleton.mp hx]; exact ⟨rfl, by decide⟩)
    rfl rfl rfl rfl
  have hb := h.2 (by decide) rfl rfl
  ⟨hst, ht.1, ht.2.1, hb.1, hb.2.1⟩

end smartcontract

/-! ## The owner key, the compliance client, and the transaction context -/

namespace kalpsdk

open smartcontract

/-- Once the owner key holds a non-empty value, `Initialize` fails and changes nothing. -/
theorem Initialize_of_owner_set (w : World) (st : State) (owner : String)
    (hread : w.GetStateErr smartContractOwner = none)
    (hget : Store.get st.store smartContractOwner = some owner) (hne : owner ≠ "") :
    Initialize w st = (.error AlreadyInitialized, st) := by
  simp [Initialize, GetState, hread, hget, hne]

/-- C22: owner initialization is idempotent-safe. Starting from a store where the key
"smartContractOwner" is absent or empty, a first `Initialize` by a principal `P` (a resolved
caller, whose identifier is the name of a certificate and so not the empty string) succeeds and
writes the identifier of `P` at "smartContractOwner", the ledger read and write not failing; any
second `Initialize`, by any principal, whose read of the key does not fail, fails with
`AlreadyInitialized` and leaves the state, and so the value at "smartContractOwner", equal to
what the first call wrote. -/
theorem C22_owner_initialized_once (first second : World) (st : State) (P : String)
    (hstart : Store.get st.store smartContractOwner = none
      ∨ Store.get st.store smartContractOwner = some "")
    (hP : GetUserID first = .ok P) (hne : P ≠ "")
    (hread : first.GetStateErr smartContractOwner = none)
    (hput : first.PutStateErr smartContractOwner P = none)
    (hread2 : second.GetStateErr smartContractOwner = none) :
    (Initialize first st).1 = .ok ()
    ∧ Store.get (Initialize first st).2.store smartContractOwner = some P
    ∧ Initialize second (Initialize first st).2
        = (.error AlreadyInitialized, (Initialize first st).2)
    ∧ Store.get (Initialize second (Initialize first st).2).2.store smartContractOwner
        = some P := by
  have hfirst : Initialize first st =
      (.ok (), { st with store := Store.put st.store smartContractOwner P,
                         trace := st.trace ++ [Call.PutState smartContractOwner P] }) := by
    rcases hstart with h | h <;>
      simp [Initialize, GetState, hread, h, hP, PutState, hput]
  have hget : Store.get (Initialize first st).2.store smartContractOwner = some P := by
    rw [hfirst]
    exact Store.get_put_same _ _ _
  have hsecond : Initialize second (Initialize first st).2
      = (.error AlreadyInitialized, (Initialize first st).2) :=
    Initialize_of_owner_set second (Initialize first st).2 P hread2 hget hne
  refine ⟨by rw [hfirst], hget, hsecond, ?_⟩
  rw [hsecond]
  exact hget

/-- C22, at the scenario of the tests: alice initializes over an empty owner value, then bob
tries. -/
theorem C22_owner_initialized_once_witness :
    Store.get fixture.emptyOwner.store smartContractOwner = some ""
    ∧ (Initialize (fixture.world "alice" []) fixture.emptyOwner).1 = .ok ()
    ∧ Store.get (Initialize (fixture.world "alice" []) fixture.emptyOwner).2.store
        smartContractOwner = some "alice"
    ∧ Initialize (fixture.world "bob" []) (Initialize (fixture.world "alice" [])
        fixture.emptyOwner).2
        = (.error AlreadyInitialized, (Initialize (fixture.world "alice" [])
            fixture.emptyOwner).2) :=
  have h := C22_owner_initialized_once (fixture.world "alice" []) (fixture.world "bob" [])
    fixture.emptyOwner "alice" (Or.inr rfl) rfl (by decide) rfl rfl rfl
  ⟨rfl, h.1, h.2.1, h.2.2.1⟩

/-- C23: `GetKYC(userId)` is a function of the response to the single invocation of chaincode
"kyc" with arguments ["KycExists", userId] on channel "universalkyc". It issues exactly that
invocation and changes nothing else; it returns `true` without error exactly when the response
status is OK and the payload is the literal "true"; an OK response with any other payload gives
`false` without error; a non-OK response status gives an error and never `true`. -/
theorem C23_GetKYC_reads_response (w : World) (userId : String) (st : State) :
    (GetKYC w userId st).2
        = { st with trace := st.trace ++
              [Call.InvokeChaincode "kyc" ["KycExists", userId] "universalkyc"] }
    ∧ ((GetKYC w userId st).1 = .ok true ↔
        (w.Invoke "kyc" ["KycExists", userId] "universalkyc").Status = OK
        ∧ (w.Invoke "kyc" ["KycExists", userId] "universalkyc").Payload = "true")
    ∧ ((w.Invoke "kyc" ["KycExists", userId] "universalkyc").Status = OK →
        (w.Invoke "kyc" ["KycExists", userId] "universalkyc").Payload ≠ "true" →
        (GetKYC w userId st).1 = .ok false)
    ∧ ((w.Invoke "kyc" ["KycExists", userId] "universalkyc").Status ≠ OK →
        (∃ err : String, (GetKYC w userId st).1 = .error err)
        ∧ (GetKYC w userId st).1 ≠ .ok true)
    ∧ (∀ (w2 : World) (st2 : State),
        w2.Invoke "kyc" ["KycExists", userId] "universalkyc"
          = w.Invoke "kyc" ["KycExists", userId] "universalkyc" →
        (GetKYC w2 userId st2).1 = (GetKYC w userId st).1) := by
  refine ⟨?_, ?_, ?_, ?_, ?_⟩
  · unfold GetKYC InvokeChaincode
    by_cases h : (w.Invoke "kyc" ["KycExists", userId] "universalkyc").Status = OK <;> simp [h]
  · unfold GetKYC InvokeChaincode
    by_cases h : (w.Invoke "kyc" ["KycExists", userId] "universalkyc").Status = OK <;> simp [h]
  · intro h hp
    unfold GetKYC InvokeChaincode
    simp [h, hp]
  · intro h
    unfold GetKYC InvokeChaincode
    simp [h]
  · intro w2 st2 hsame
    unfold GetKYC InvokeChaincode
    simp only [hsame]
    by_cases h : (w.Invoke "kyc" ["KycExists", userId] "universalkyc").Status = OK <;> simp [h]

/-- C23, at concrete inputs: carol is KYCed and dave is not. -/
theorem C23_GetKYC_reads_response_witness :
    (GetKYC (fixture.world "alice" ["carol"]) "carol" fixture.blank).1 = .ok true
    ∧ (GetKYC (fixture.world "alice" ["carol"]) "dave" fixture.blank).1 = .ok false :=
  ⟨(C23_GetKYC_reads_response (fixture.world "alice" ["carol"]) "carol" fixture.blank).2.1.mpr
      ⟨rfl, rfl⟩,
    (C23_GetKYC_reads_response (fixture.world "alice" ["carol"]) "dave" fixture.blank).2.2.1
      rfl (by decide)⟩

/-- C24: `PutKYC(id, kycId, kycHash)` issues exactly one invocation of chaincode "kyc" with
arguments ["CreateKyc", id, kycId, kycHash], in that order, on channel "universalkyc", changes
nothing else, and returns an error if and only if the response status is not OK. -/
theorem C24_PutKYC_single_invocation (w : World) (id kycId kycHash : String) (st : State) :
    (PutKYC w id kycId kycHash st).2
        = { st with trace := st.trace ++
              [Call.InvokeChaincode "kyc" ["CreateKyc", id, kycId, kycHash] "universalkyc"] }
    ∧ ((∃ err : String, (PutKYC w id kycId kycHash st).1 = .error err) ↔
        (w.Invoke "kyc" ["CreateKyc", id, kycId, kycHash] "universalkyc").Status ≠ OK)
    ∧ ((w.Invoke "kyc" ["CreateKyc", id, kycId, kycHash] "universalkyc").Status ≠ OK →
        (PutKYC w id kycId kycHash st).1 = .error ComplianceRegistrationFailed)
    ∧ ((w.Invoke "kyc" ["CreateKyc", id, kycId, kycHash] "universalkyc").Status = OK →
        (PutKYC w id kycId kycHash st).1 = .ok ()) := by
  unfold PutKYC InvokeChaincode
  by_cases h : (w.Invoke "kyc" ["CreateKyc", id, kycId, kycHash] "universalkyc").Status = OK
    <;> simp [h]

/-- C24, at a concrete input: the fixture service knows no creation selector and answers with the
error status. -/
theorem C24_PutKYC_single_invocation_witness :
    (PutKYC (fixture.world "alice" []) "sampleId" "kycId" "kycHash" fixture.blank).1
        = .error ComplianceRegistrationFailed
    ∧ (PutKYC (fixture.world "alice" []) "sampleId" "kycId" "kycHash" fixture.blank).2.trace
        = [Call.InvokeChaincode "kyc" ["CreateKyc", "sampleId", "kycId", "kycHash"]
            "universalkyc"] :=
  ⟨(C24_PutKYC_single_invocation (fixture.world "alice" []) "sampleId" "kycId" "kycHash"
      fixture.blank).2.2.1 (by decide),
    rfl⟩

/-- C26: for every transaction context, stub `s` and client identity `c`: after `SetStub(s)`,
`GetStub()` returns `s`, and after `SetClientIdentity(c)`, `GetClientIdentity()` returns `c`; each
setter leaves the other field of the context unchanged. -/
theorem C26_context_setters_getters {Stub Identity : Type}
    (ctx : TransactionContext Stub Identity) (s : Stub) (c : Identity) :
    (ctx.SetStub s).GetStub = s
    ∧ (ctx.SetClientIdentity c).GetClientIdentity = c
    ∧ (ctx.SetStub s).GetClientIdentity = ctx.GetClientIdentity
    ∧ (ctx.SetClientIdentity c).GetStub = ctx.GetStub
    ∧ ((ctx.SetStub s).SetClientIdentity c).GetStub = s
    ∧ ((ctx.SetClientIdentity c).SetStub s).GetClientIdentity = c :=
  ⟨rfl, rfl, rfl, rfl, rfl, rfl⟩

end kalpsdk

/-! ## The token options, and who may transfer -/

namespace smartcontract

open kalpsdk

/-- A `PutStateWithKYC` that succeeds wrote the value and emitted nothing. -/
theorem PutStateWithKYC_ok (w : World) (key : String) (value : Bytes) (st st1 : State)
    (h : PutStateWithKYC w key value st = (.ok (), st1)) :
    st1.store = Store.put st.store key value ∧ st1.events = st.events := by
  rw [PutStateWithKYC_eq] at h
  cases hP : GetUserID w with
  | error e => simp [hP] at h
  | ok P =>
    cases hk : kycAnswer w P with
    | error e => simp [hP, hk] at h
    | ok ans =>
      cases ans
      · simp [hP, hk] at h
      · cases hput : w.PutStateErr key value with
        | some e => simp [hP, hk, PutState, hput] at h
        | none =>
          simp only [hP, hk, PutState, hput, Prod.mk.injEq, true_and] at h
          rw [← h]
          exact ⟨rfl, rfl⟩

/-- Once the key "name" holds a value, the `Initialize` of the contract fails, whatever the caller
and the input, and changes nothing. -/
theorem Initialize_of_name_set (w : World) (data : String) (st : State) (old : Bytes)
    (hget : Store.get st.store nameKey = some old) :
    ∃ err : String, smartcontract.Initialize w data st = (.error err, st) := by
  unfold smartcontract.Initialize
  cases hu : w.UnmarshalMap data with
  | error e => exact ⟨"failed to fetch input " ++ e, rfl⟩
  | ok m =>
    cases hn : m "name" with
    | none => exact ⟨"name is required field", by simp [hn]⟩
    | some name =>
      cases hs : m "symbol" with
      | none => exact ⟨"name is required field", by simp [hn, hs]⟩
      | some symbol =>
        cases he : w.GetStateErr nameKey with
        | some e =>
          exact ⟨"failed to get token name from state: " ++ e, by simp [hn, hs, GetState, he]⟩
        | none =>
          exact ⟨"contract options are already set, client is not authorized to change them",
            by simp [hn, hs, GetState, he, hget]⟩

/-- C25: the `Initialize` of the example contract sets the token name and symbol at most once.
If the key "name" already holds a value it returns an error and writes nothing; if `data` is not
a JSON object with string fields "name" and "symbol" it returns an error and writes nothing; it
returns `true` without error only when both `PutStateWithKYC("name", name)` and
`PutStateWithKYC("symbol", symbol)` succeeded; and after a success a second `Initialize`, by any
caller with any input, fails and leaves the state, and so both keys, unchanged. -/
theorem C25_options_set_once (w : World) (data : String) (st : State) :
    (∀ old : Bytes, Store.get st.store nameKey = some old →
      ∃ err : String, smartcontract.Initialize w data st = (.error err, st))
    ∧ ((∀ m : String → Option String, w.UnmarshalMap data = .ok m →
          m "name" = none ∨ m "symbol" = none) →
      ∃ err : String, smartcontract.Initialize w data st = (.error err, st))
    ∧ (∀ ok : Bool, (smartcontract.Initialize w data st).1 = .ok ok →
      ok = true
      ∧ (∃ (m : String → Option String) (name symbol : String) (st1 : State),
          w.UnmarshalMap data = .ok m ∧ m "name" = some name ∧ m "symbol" = some symbol
          ∧ PutStateWithKYC w nameKey name st = (.ok (), st1)
          ∧ PutStateWithKYC w symbolKey symbol st1
              = (.ok (), (smartcontract.Initialize w data st).2)
          ∧ Store.get (smartcontract.Initialize w data st).2.store nameKey = some name
          ∧ Store.get (smartcontract.Initialize w data st).2.store symbolKey = some symbol)
      ∧ (∀ (w2 : World) (data2 : String),
          ∃ err : String,
            smartcontract.Initialize w2 data2 (smartcontract.Initialize w data st).2
              = (.error err, (smartcontract.Initialize w data st).2))) := by
  refine ⟨fun old hget => Initialize_of_name_set w data st old hget, ?_, ?_⟩
  · intro hbad
    unfold smartcontract.Initialize
    cases hu : w.UnmarshalMap data with
    | error e => exact ⟨"failed to fetch input " ++ e, rfl⟩
    | ok m =>
      rcases hbad m hu with hn | hs
      · exact ⟨"name is required field", by simp [hn]⟩
      · cases hn : m "name" with
        | none => exact ⟨"name is required field", by simp [hn]⟩
        | some name => exact ⟨"name is required field", by simp [hn, hs]⟩
  · intro ok hok
    unfold smartcontract.Initialize at hok ⊢
    cases hu : w.UnmarshalMap data with
    | error e => simp [hu] at hok
    | ok m =>
      cases hn : m "name" with
      | none => simp [hu, hn] at hok
      | some name =>
        cases hs : m "symbol" with
        | none => simp [hu, hn, hs] at hok
        | some symbol =>
          cases hg : GetState w nameKey st with
          | error e => simp [hu, hn, hs, hg] at hok
          | ok ob =>
            cases ob with
            | some old => simp [hu, hn, hs, hg] at hok
            | none =>
              cases h1 : PutStateWithKYC w nameKey name st with
              | mk res1 st1 =>
                cases res1 with
                | error e => simp [hu, hn, hs, hg, h1] at hok
                | ok u1 =>
                  cases h2 : PutStateWithKYC w symbolKey symbol st1 with
                  | mk res2 st2 =>
                    cases res2 with
                    | error e => simp [hu, hn, hs, hg, h1, h2] at hok
                    | ok u2 =>
                      simp only [hu, hn, hs, hg, h1, h2] at hok ⊢
                      obtain ⟨hs1, _⟩ := PutStateWithKYC_ok w nameKey name st st1 h1
                      obtain ⟨hs2, _⟩ := PutStateWithKYC_ok w symbolKey symbol st1 st2 h2
                      have hname : Store.get st2.store nameKey = some name := by
                        rw [hs2, Store.get_put_other _ _ _ _ (by decide), hs1]
                        exact Store.get_put_same _ _ _
                      have hsym : Store.get st2.store symbolKey = some symbol := by
                        rw [hs2]
                        exact Store.get_put_same _ _ _
                      refine ⟨by simpa using hok.symm, ⟨m, name, symbol, st1, rfl, hn, hs, h1,
                        h2, hname, hsym⟩, ?_⟩
                      intro w2 data2
                      exact Initialize_of_name_set w2 data2 st2 name hname

/-- C25, at a concrete input: alice, KYCed, sets the options on a blank ledger; then bob, KYCed
too, tries with the same input. -/
theorem C25_options_set_once_witness :
    (smartcontract.Initialize (fixture.worldOptions "alice" ["alice"]) fixture.options
        fixture.blank).1 = .ok true
    ∧ Store.get (smartcontract.Initialize (fixture.worldOptions "alice" ["alice"])
        fixture.options fixture.blank).2.store nameKey = some "Kalp"
    ∧ ∃ err : String,
        smartcontract.Initialize (fixture.worldOptions "bob" ["bob"]) fixture.options
            (smartcontract.Initialize (fixture.worldOptions "alice" ["alice"]) fixture.options
              fixture.blank).2
          = (.error err, (smartcontract.Initialize (fixture.worldOptions "alice" ["alice"])
              fixture.options fixture.blank).2) :=
  ⟨rfl, rfl,
    ((C25_options_set_once (fixture.worldOptions "alice" ["alice"]) fixture.options
      fixture.blank).2.2 true rfl).2.2 (fixture.worldOptions "bob" ["bob"]) fixture.options⟩

/-- C27: `TransferNIU` ignores its senders, docType, amount and timeStamp arguments. For every
initial state, caller, id and receivers, two calls that differ only in senders, docType, amount or
timeStamp return the same result and leave the same state: the same store, the same events, the
same calls to the stub. -/
theorem C27_transfer_ignores_arguments (w : World) (senders senders2 receivers : List String)
    (id docType docType2 : String) (amount amount2 : Nat) (timeStamp timeStamp2 : String)
    (st : State) :
    TransferNIU w senders receivers id docType amount timeStamp st
      = TransferNIU w senders2 receivers id docType2 amount2 timeStamp2 st :=
  rfl

/-- The loop over the receivers does not depend on the caller. -/
theorem checkReceivers_caller (w : World) (u : Except String String) (account : List String)
    (receivers : List String) (st : State) :
    checkReceivers { w with UserID := u } account receivers st
      = checkReceivers w account receivers st := by
  induction receivers generalizing st with
  | nil => rfl
  | cons x rest ih =>
    have hk : kycAnswer { w with UserID := u } x = kycAnswer w x := rfl
    rw [checkReceivers_cons, checkReceivers_cons, hk]
    cases kycAnswer w x with
    | error e => rfl
    | ok ans =>
      cases ans
      · rfl
      · by_cases hx : x ∈ account
        · simp only [hx, if_true]
        · simp only [hx, if_false]
          exact ih _

/-- The gate, seen through result, store and events, depends on the caller only through the
answer of the compliance lookup for the caller. -/
theorem PutStateWithKYC_caller (w : World) (P Q : String) (key : String) (value : Bytes)
    (st st0 : State) (hP : GetUserID w = .ok P) (hk : kycAnswer w Q = kycAnswer w P)
    (hstore : st0.store = st.store) (hevents : st0.events = st.events) :
    (PutStateWithKYC { w with UserID := .ok Q } key value st0).1 = (PutStateWithKYC w key value st).1
    ∧ (PutStateWithKYC { w with UserID := .ok Q } key value st0).2.store
        = (PutStateWithKYC w key value st).2.store
    ∧ (PutStateWithKYC { w with UserID := .ok Q } key value st0).2.events
        = (PutStateWithKYC w key value st).2.events := by
  have hQ : GetUserID { w with UserID := .ok Q } = .ok Q := rfl
  have hkQ : kycAnswer { w with UserID := .ok Q } Q = kycAnswer w P := hk
  rw [PutStateWithKYC_eq, PutStateWithKYC_eq, hQ, hP]
  simp only [hkQ]
  cases kycAnswer w P with
  | error e => exact ⟨rfl, hstore, hevents⟩
  | ok ans =>
    cases ans
    · exact ⟨rfl, hstore, hevents⟩
    · have hput : ({ w with UserID := .ok Q } : World).PutStateErr key value
          = w.PutStateErr key value := rfl
      simp only [PutState, hput]
      cases w.PutStateErr key value with
      | some e => exact ⟨rfl, hstore, hevents⟩
      | none => exact ⟨rfl, by simp [hstore], hevents⟩

/-- `TransferNIU`, seen through result, store and events, depends on the caller only through the
answer of the compliance lookup for the caller. -/
theorem transfer_caller (w : World) (P Q : String) (senders receivers : List String)
    (id docType : String) (amount : Nat) (timeStamp : String) (st : State)
    (hP : GetUserID w = .ok P) (hk : kycAnswer w Q = kycAnswer w P) :
    (TransferNIU { w with UserID := .ok Q } senders receivers id docType amount timeStamp st).1
        = (TransferNIU w senders receivers id docType amount timeStamp st).1
    ∧ (TransferNIU { w with UserID := .ok Q } senders receivers id docType amount timeStamp
          st).2.store
        = (TransferNIU w senders receivers id docType amount timeStamp st).2.store
    ∧ (TransferNIU { w with UserID := .ok Q } senders receivers id docType amount timeStamp
          st).2.events
        = (TransferNIU w senders receivers id docType amount timeStamp st).2.events := by
  have hg : GetState { w with UserID := .ok Q } id st = GetState w id st := rfl
  simp only [TransferNIU, hg, checkReceivers_caller]
  cases GetState w id st with
  | error e => exact ⟨rfl, rfl, rfl⟩
  | ok ob =>
    cases ob with
    | none => exact ⟨rfl, rfl, rfl⟩
    | some b =>
      simp only []
      cases w.Unmarshal b with
      | error e => exact ⟨rfl, rfl, rfl⟩
      | ok r =>
        simp only []
        cases checkReceivers w r.Account receivers st with
        | mk res st1 =>
          cases res with
          | error e => exact ⟨rfl, rfl, rfl⟩
          | ok u =>
            simp only []
            cases w.Marshal { r with Account := receivers } with
            | error e => exact ⟨rfl, rfl, rfl⟩
            | ok v =>
              simp only []
              by_cases hs : r.Status = statusCompleted
              · simp only [hs, ne_eq, not_true_eq_false, if_false]
                obtain ⟨h1, h2, h3⟩ := PutStateWithKYC_caller w P Q id v st1 st1 hP hk rfl rfl
                generalize PutStateWithKYC { w with UserID := .ok Q } id v st1 = resA at h1 h2 h3 ⊢
                generalize PutStateWithKYC w id v st1 = resB at h1 h2 h3 ⊢
                obtain ⟨a, sa⟩ := resA
                obtain ⟨c, sb⟩ := resB
                simp only at h1 h2 h3
                subst h1
                cases a with
                | error e => exact ⟨rfl, h2, h3⟩
                | ok u2 =>
                  have hev : ({ w with UserID := .ok Q } : World).SetEventErr "TransferNIU" v
                      = w.SetEventErr "TransferNIU" v := rfl
                  simp only [SetEvent, hev]
                  cases w.SetEventErr "TransferNIU" v with
                  | some e => simp [h2, h3]
                  | none => simp [h2, h3]
              · simp only [ne_eq, hs, not_false_eq_true, if_true]
                exact ⟨trivial, trivial, trivial⟩

/-- The run of `TransferNIU` when every check passes and the ledger accepts write and event. -/
theorem transfer_ok_eq (w : World) (senders receivers : List String) (id docType : String)
    (amount : Nat) (timeStamp : String) (st : State) (b : Bytes) (r : NIU) (v : Bytes) (P : String)
    (hst : Stored w st id b r) (hs : r.Status = statusCompleted)
    (hall : ∀ x ∈ receivers, kycAnswer w x = .ok true ∧ x ∉ r.Account)
    (hP : GetUserID w = .ok P) (hk : kycAnswer w P = .ok true)
    (hm : w.Marshal { r with Account := receivers } = .ok v)
    (hput : w.PutStateErr id v = none) (hev : w.SetEventErr "TransferNIU" v = none) :
    TransferNIU w senders receivers id docType amount timeStamp st =
      (.ok (), { store := Store.put st.store id v,
                 events := st.events ++ [("TransferNIU", v)],
                 trace := st.trace ++ receivers.map kycCall ++
                   [kycCall P, Call.PutState id v, Call.SetEvent "TransferNIU" v] }) := by
  have hm0 := hm
  rw [hs] at hm0
  simp only [TransferNIU, hst.1, hst.2, checkReceivers_pass w r.Account receivers st hall, hs,
    hm0, ne_eq, not_true_eq_false, if_false]
  rw [PutStateWithKYC_eq, hP]
  simp only [hk, PutState, hput, SetEvent, hev]
  simp

theorem ReadNIU_of_member (w : World) (id : String) (st : State) (b : Bytes) (r : NIU)
    (p : String) (hst : Stored w st id b r) (hp : GetUserID w = .ok p) (hmem : p ∈ r.Account) :
    ReadNIU w id st = .ok r := by
  simp only [ReadNIU, hst.1, hst.2, hp, slicesContains, hmem, decide_True, Bool.not_true,
    Bool.false_eq_true, if_false]

theorem ReadNIU_of_non_member (w : World) (id : String) (st : State) (b : Bytes) (r : NIU)
    (p : String) (hst : Stored w st id b r) (hp : GetUserID w = .ok p) (hmem : p ∉ r.Account) :
    ReadNIU w id st = .error ("not a valid owner " ++ formatStrings r.Account ++
      " for the NIU asset with ID " ++ id) := by
  simp only [ReadNIU, hst.1, hst.2, hp, slicesContains, hmem, decide_False, Bool.not_false,
    if_true]

theorem BurnTokens_of_non_member (w : World) (id account : String) (amount : Nat) (st : State)
    (b : Bytes) (r : NIU) (p : String) (hst : Stored w st id b r) (hp : GetUserID w = .ok p)
    (hmem : p ∉ r.Account) :
    BurnTokens w id account amount st = (.error "only the asset owner can initiate a burn", st) := by
  simp only [BurnTokens, hst.1, hst.2, hp, slicesContains, hmem, decide_False, Bool.not_false,
    if_true]

/-- After a write of `v` at `id`, a reader whose read does not fail and who decodes `v` to `r2`
finds `r2` stored at `id`. -/
theorem Stored_after_put (reader : World) (st : State) (after : State) (id : String) (v : Bytes)
    (r2 : NIU) (hstore : after.store = Store.put st.store id v)
    (hread : reader.GetStateErr id = none) (hdec : reader.Unmarshal v = .ok r2) :
    Stored reader after id v r2 := by
  refine ⟨?_, hdec⟩
  simp only [GetState, hread, hstore, Store.get_put_same]

/-- C28: `TransferNIU` does not require the caller to hold the asset. For every stored COMPLETED
record and every compliant caller that is not in the record's account list and is not named in
senders, a transfer to compliant receivers that are not in the account list succeeds (the ledger
accepting write and event) and replaces the account list: the store holds afterwards the
serialization of the record with the receivers as account. And the outcome of any `TransferNIU`
(result, store, events) depends on the caller only through the caller's compliance status:
another caller with the same compliance answer gets the same outcome. -/
theorem C28_transfer_by_non_holder (w : World) (senders receivers : List String)
    (id docType : String) (amount : Nat) (timeStamp : String) (st : State) (b : Bytes) (r : NIU)
    (v : Bytes) (P : String) (hst : Stored w st id b r) (hs : r.Status = statusCompleted)
    (hrecv : ∀ x ∈ receivers, kycAnswer w x = .ok true)
    (hnot : ∀ x ∈ receivers, x ∉ r.Account)
    (hP : GetUserID w = .ok P) (hk : kycAnswer w P = .ok true)
    (hout : P ∉ r.Account) (hsend : P ∉ senders)
    (hm : w.Marshal { r with Account := receivers } = .ok v)
    (hput : w.PutStateErr id v = none) (hev : w.SetEventErr "TransferNIU" v = none) :
    (TransferNIU w senders receivers id docType amount timeStamp st).1 = .ok ()
    ∧ Store.get (TransferNIU w senders receivers id docType amount timeStamp st).2.store id
        = some v
    ∧ ({ r with Account := receivers } : NIU).Account = receivers
    ∧ (∀ (Q : String) (senders0 receivers0 : List String) (id0 docType0 : String)
        (amount0 : Nat) (timeStamp0 : String) (st0 : State),
        kycAnswer w Q = kycAnswer w P →
        (TransferNIU { w with UserID := .ok Q } senders0 receivers0 id0 docType0 amount0
            timeStamp0 st0).1
          = (TransferNIU w senders0 receivers0 id0 docType0 amount0 timeStamp0 st0).1
        ∧ (TransferNIU { w with UserID := .ok Q } senders0 receivers0 id0 docType0 amount0
            timeStamp0 st0).2.store
          = (TransferNIU w senders0 receivers0 id0 docType0 amount0 timeStamp0 st0).2.store
        ∧ (TransferNIU { w with UserID := .ok Q } senders0 receivers0 id0 docType0 amount0
            timeStamp0 st0).2.events
          = (TransferNIU w senders0 receivers0 id0 docType0 amount0 timeStamp0 st0).2.events) := by
  have hres := transfer_ok_eq w senders receivers id docType amount timeStamp st b r v P hst hs
    (fun x hx => ⟨hrecv x hx, hnot x hx⟩) hP hk hm hput hev
  refine ⟨by rw [hres], by rw [hres]; exact Store.get_put_same _ _ _, rfl, ?_⟩
  intro Q senders0 receivers0 id0 docType0 amount0 timeStamp0 st0 hsame
  exact transfer_caller w P Q senders0 receivers0 id0 docType0 amount0 timeStamp0 st0 hP hsame

/-- C28, at a concrete input: bob, KYCed and no holder of A1, transfers A1 from alice to carol. -/
theorem C28_transfer_by_non_holder_witness :
    Stored (fixture.world "bob" ["bob", "carol"]) fixture.ledger "A1"
        (fixture.render fixture.niuA1) fixture.niuA1
    ∧ "bob" ∉ fixture.niuA1.Account
    ∧ (TransferNIU (fixture.world "bob" ["bob", "carol"]) ["alice"] ["carol"] "A1" "ASSET-X" 0 ""
          fixture.ledger).1 = .ok ()
    ∧ Store.get (TransferNIU (fixture.world "bob" ["bob", "carol"]) ["alice"] ["carol"] "A1"
          "ASSET-X" 0 "" fixture.ledger).2.store "A1" = some (fixture.render fixture.niuA1carol) :=
  have hst : Stored (fixture.world "bob" ["bob", "carol"]) fixture.ledger "A1"
      (fixture.render fixture.niuA1) fixture.niuA1 := ⟨rfl, rfl⟩
  have h := C28_transfer_by_non_holder (fixture.world "bob" ["bob", "carol"]) ["alice"] ["carol"]
    "A1" "ASSET-X" 0 "" fixture.ledger (fixture.render fixture.niuA1) fixture.niuA1
    (fixture.render fixture.niuA1carol) "bob" hst rfl
    (fun x hx => by rw [List.mem_singleton.mp hx]; rfl)
    (fun x hx => by rw [List.mem_singleton.mp hx]; decide)
    rfl rfl (by decide) (by decide) rfl rfl rfl
  ⟨hst, by decide, h.1, h.2.1⟩

/-- C29: a transfer to an empty receivers list orphans the asset. For every stored COMPLETED
record and compliant caller, `TransferNIU` with no receiver succeeds (the ledger accepting write
and event) with the compliance lookup of the caller as its only lookup, and stores the record
with an empty account list; from that store, `json.Unmarshal` giving back the record that was
serialized, `ReadNIU` and `BurnTokens` on that id fail with their not-authorized errors for every
calling principal. -/
theorem C29_transfer_to_nobody_orphans (w reader : World) (senders : List String)
    (id docType : String) (amount : Nat) (timeStamp : String) (account : String) (burnt : Nat)
    (st : State) (b : Bytes) (r : NIU) (v : Bytes) (P p : String)
    (hst : Stored w st id b r) (hs : r.Status = statusCompleted)
    (hP : GetUserID w = .ok P) (hk : kycAnswer w P = .ok true)
    (hm : w.Marshal { r with Account := [] } = .ok v)
    (hput : w.PutStateErr id v = none) (hev : w.SetEventErr "TransferNIU" v = none)
    (hround : RoundTrip w reader { r with Account := [] })
    (hread : reader.GetStateErr id = none) (hp : GetUserID reader = .ok p) :
    TransferNIU w senders [] id docType amount timeStamp st =
        (.ok (), { store := Store.put st.store id v,
                   events := st.events ++ [("TransferNIU", v)],
                   trace := st.trace ++
                     [kycCall P, Call.PutState id v, Call.SetEvent "TransferNIU" v] })
    ∧ Stored reader (TransferNIU w senders [] id docType amount timeStamp st).2 id v
        { r with Account := [] }
    ∧ ReadNIU reader id (TransferNIU w senders [] id docType amount timeStamp st).2
        = .error ("not a valid owner " ++ formatStrings [] ++ " for the NIU asset with ID " ++ id)
    ∧ BurnTokens reader id account burnt
          (TransferNIU w senders [] id docType amount timeStamp st).2
        = (.error "only the asset owner can initiate a burn",
            (TransferNIU w senders [] id docType amount timeStamp st).2) := by
  have hres := transfer_ok_eq w senders [] id docType amount timeStamp st b r v P hst hs
    (fun x hx => absurd hx (List.not_mem_nil x)) hP hk hm hput hev
  simp only [List.map_nil, List.append_nil] at hres
  have hstore : (TransferNIU w senders [] id docType amount timeStamp st).2.store
      = Store.put st.store id v := by rw [hres]
  have hdec := hround v hm
  generalize TransferNIU w senders [] id docType amount timeStamp st = res at hres hstore ⊢
  have hafter : Stored reader res.2 id v { r with Account := [] } :=
    Stored_after_put reader st res.2 id v { r with Account := [] } hstore hread hdec
  have hnone : p ∉ ({ r with Account := [] } : NIU).Account := List.not_mem_nil p
  exact ⟨hres, hafter,
    ReadNIU_of_non_member reader id res.2 v { r with Account := [] } p hafter hp hnone,
    BurnTokens_of_non_member reader id account burnt res.2 v { r with Account := [] } p hafter
      hp hnone⟩

/-- C29, at a concrete input: alice transfers A1 to nobody; then alice herself can neither read
nor burn it. -/
theorem C29_transfer_to_nobody_orphans_witness :
    Stored (fixture.world "alice" ["alice"]) fixture.ledger "A1"
        (fixture.render fixture.niuA1) fixture.niuA1
    ∧ (TransferNIU (fixture.world "alice" ["alice"]) ["alice"] [] "A1" "ASSET-X" 0 ""
          fixture.ledger).1 = .ok ()
    ∧ ReadNIU (fixture.world "alice" ["alice"]) "A1"
          (TransferNIU (fixture.world "alice" ["alice"]) ["alice"] [] "A1" "ASSET-X" 0 ""
            fixture.ledger).2
        = .error ("not a valid owner " ++ formatStrings [] ++ " for the NIU asset with ID " ++ "A1")
    ∧ (BurnTokens (fixture.world "alice" ["alice"]) "A1" "alice" 0
          (TransferNIU (fixture.world "alice" ["alice"]) ["alice"] [] "A1" "ASSET-X" 0 ""
            fixture.ledger).2).1
        = .error "only the asset owner can initiate a burn" :=
  have hst : Stored (fixture.world "alice" ["alice"]) fixture.ledger "A1"
      (fixture.render fixture.niuA1) fixture.niuA1 := ⟨rfl, rfl⟩
  have hround : RoundTrip (fixture.world "alice" ["alice"]) (fixture.world "alice" ["alice"])
      { fixture.niuA1 with Account := [] } := by
    intro v hv
    have e : fixture.render fixture.niuA1none = v := by
      simpa [fixture.world] using hv
    rw [← e]
    rfl
  have h := C29_transfer_to_nobody_orphans (fixture.world "alice" ["alice"])
    (fixture.world "alice" ["alice"]) ["alice"] "A1" "ASSET-X" 0 "" "alice" 0 fixture.ledger
    (fixture.render fixture.niuA1) fixture.niuA1 (fixture.render fixture.niuA1none) "alice" "alice"
    hst rfl rfl rfl rfl rfl rfl hround rfl rfl
  ⟨hst, by rw [h.1], h.2.2.1, by rw [h.2.2.2]⟩

/-- C30: a successful transfer hands over access completely. For every successful `TransferNIU`
on `id`, `json.Unmarshal` giving back the record that was serialized, in the resulting store
`ReadNIU(id)` succeeds for every principal in receivers and fails with the not-authorized error
for every principal that was in the account list before the transfer, and `BurnTokens` likewise
is refused to every previous holder. -/
theorem C30_transfer_hands_over_access (w reader : World) (senders receivers : List String)
    (id docType : String) (amount : Nat) (timeStamp : String) (account : String) (burnt : Nat)
    (st : State) (b : Bytes) (r : NIU) (p : String) (hst : Stored w st id b r)
    (hok : (TransferNIU w senders receivers id docType amount timeStamp st).1 = .ok ())
    (hround : RoundTrip w reader { r with Account := receivers })
    (hread : reader.GetStateErr id = none) (hp : GetUserID reader = .ok p) :
    (p ∈ receivers →
      ReadNIU reader id (TransferNIU w senders receivers id docType amount timeStamp st).2
        = .ok { r with Account := receivers })
    ∧ (p ∈ r.Account →
      ReadNIU reader id (TransferNIU w senders receivers id docType amount timeStamp st).2
          = .error ("not a valid owner " ++ formatStrings receivers ++
              " for the NIU asset with ID " ++ id)
      ∧ BurnTokens reader id account burnt
            (TransferNIU w senders receivers id docType amount timeStamp st).2
          = (.error "only the asset owner can initiate a burn",
              (TransferNIU w senders receivers id docType amount timeStamp st).2)) := by
  obtain ⟨b0, r0, v, hst0, hnot, _, hm, hstore⟩ :=
    transfer_success w senders receivers id docType amount timeStamp st hok
  obtain ⟨_, rfl⟩ := Stored_unique hst hst0
  have hdec := hround v hm
  generalize TransferNIU w senders receivers id docType amount timeStamp st = res at hstore ⊢
  have hafter : Stored reader res.2 id v { r0 with Account := receivers } :=
    Stored_after_put reader st res.2 id v { r0 with Account := receivers } hstore hread hdec
  constructor
  · intro hmem
    exact ReadNIU_of_member reader id res.2 v { r0 with Account := receivers } p hafter hp hmem
  · intro hold
    have hout : p ∉ ({ r0 with Account := receivers } : NIU).Account :=
      fun hrec => hnot p hrec hold
    exact ⟨ReadNIU_of_non_member reader id res.2 v { r0 with Account := receivers } p hafter hp
        hout,
      BurnTokens_of_non_member reader id account burnt res.2 v { r0 with Account := receivers } p
        hafter hp hout⟩

/-- C30, at the scenario of the spec: after alice transferred A1 to carol, alice can neither read
nor burn it. -/
theorem C30_transfer_hands_over_access_witness :
    (TransferNIU (fixture.world "alice" ["alice", "carol"]) ["alice"] ["carol"] "A1" "ASSET-X"
        0 "" fixture.ledger).1 = .ok ()
    ∧ "alice" ∈ fixture.niuA1.Account
    ∧ ReadNIU (fixture.world "alice" ["alice", "carol"]) "A1"
          (TransferNIU (fixture.world "alice" ["alice", "carol"]) ["alice"] ["carol"] "A1"
            "ASSET-X" 0 "" fixture.ledger).2
        = .error ("not a valid owner " ++ formatStrings ["carol"] ++
            " for the NIU asset with ID " ++ "A1") :=
  have hst : Stored (fixture.world "alice" ["alice", "carol"]) fixture.ledger "A1"
      (fixture.render fixture.niuA1) fixture.niuA1 := ⟨rfl, rfl⟩
  have hround : RoundTrip (fixture.world "alice" ["alice", "carol"])
      (fixture.world "alice" ["alice", "carol"])
      { fixture.niuA1 with Account := ["carol"] } := by
    intro v hv
    have e : fixture.render fixture.niuA1carol = v := by
      simpa [fixture.world] using hv
    rw [← e]
    rfl
  ⟨rfl, by decide,
    ((C30_transfer_hands_over_access (fixture.world "alice" ["alice", "carol"])
      (fixture.world "alice" ["alice", "carol"]) ["alice"] ["carol"] "A1" "ASSET-X" 0 "" "alice"
      0 fixture.ledger (fixture.render fixture.niuA1) fixture.niuA1 "alice" hst rfl hround rfl
      rfl).2 (by decide)).1⟩

end smartcontract
